import Mathlib

/-!
# Binance top-150 ticker relay: model of the subscription hub

A shallow embedding of `relay/client_handler.go`, `relay/binance_subscribe.go`
and `cmd/main.go`.

* Go maps that the code iterates over are lists (the iteration order of a map
  is unspecified in Go, so every list order is one admissible order); maps
  that are only indexed are functions.
* `*Client` pointers are natural numbers, `chan bool` values are natural
  numbers, the nil channel is `none`.
* Every function body of the source runs as one atomic step.  A goroutine that
  executes a channel send for which no feed is receiving stops there: the
  operation returns `Outcome.parked` with the state reached so far and the
  channel it is blocked on.  (All channels are unbuffered, and the only
  receive in the program is `case <-quit` of a feed.)  A parked goroutine
  takes no further step; on the nil channel that is exact, on another channel
  it holds as long as no feed is started on that channel afterwards.
* A feed that was started is taken to reach its receive loop (`Dial` succeeds)
  and to come back to its `select` (the upstream keeps sending frames).
* Frames written to a client are recorded; whether the write succeeds is not.
-/

namespace Relay

/-- A cancellation channel (`chan bool`): the identity of a channel made by `make(chan bool)`. -/
abbrev Chan := Nat

/-- A client session (`*Client`): the identity of the pointer. -/
abbrev ClientId := Nat

/-- Ticker payload, `type Message struct` of `binance_subscribe.go`. -/
structure Message where
  Symbol : String
  BestBid : String
  BestAsk : String
deriving DecidableEq, Repr

/-- Client request, `type ClientMessage struct` of `client_handler.go`. -/
structure ClientMessage where
  Method : String
  Pairs : List String
deriving DecidableEq, Repr

/-- Where a `SubscribeToBinanceWebSocket` goroutine stands.
`running`: in its receive loop, polling `quit`;
`closing`: it has received from `quit` and has `ClosePair` and `return` ahead;
`parked`: blocked inside `ClosePair` on a channel send;
`terminated`: returned. -/
inductive FeedStatus where
  | running
  | closing
  | parked
  | terminated
deriving DecidableEq, Repr

/-- One started `go SubscribeToBinanceWebSocket(symbol, quit)`. -/
structure Feed where
  symbol : String
  quit : Chan
  status : FeedStatus
deriving DecidableEq, Repr

/-- Where a `handleClient` goroutine stands.
`reading`: in `client.Conn.ReadMessage()`;
`parked`: blocked on a channel send;
`closed`: the deferred function has returned. -/
inductive ClientStatus where
  | reading
  | parked
  | closed
deriving DecidableEq, Repr

/-- The shared state of the process. -/
structure State where
  /-- The map behind `*subscribedPairs`, which is `CurrentTop150` of `main.go`. -/
  subscribedPairs : List (String × Chan)
  /-- The registry `subscribedClients`: `none` is an absent key (a nil inner map). -/
  subscribedClients : String → Option (List ClientId)
  /-- The keys of `client.Subscriptions`, for every client (only `true` is ever stored). -/
  Subscriptions : ClientId → List String
  /-- Every feed goroutine started so far, in start order. -/
  feeds : List Feed
  /-- Text frames handed to `client.Conn.WriteMessage`, oldest first. -/
  written : List (ClientId × String)
  /-- The identity the next `make(chan bool)` returns. -/
  nextChan : Chan
  /-- Where each `handleClient` goroutine stands. -/
  clientStatus : ClientId → ClientStatus
  /-- Whether the goroutine of `main` is blocked in `updateTop150`. -/
  refresherParked : Bool

/-- Result of running a function body that may block on a channel send. -/
inductive Outcome where
  | done (s : State)
  | parked (s : State) (ch : Option Chan)

/-- The state an outcome carries. -/
def Outcome.state : Outcome → State
  | .done s => s
  | .parked s _ => s

/-- Whether the body ran to its end. -/
def Outcome.completed : Outcome → Bool
  | .done _ => true
  | .parked _ _ => false

/-! ## Map primitives -/

/-- The expression `m[key]` for `m : map[string]chan bool`; `none` is nil. -/
def chanOf : List (String × Chan) → String → Option Chan
  | [], _ => none
  | (k, ch) :: rest, key => if k = key then some ch else chanOf rest key

/-- The statement `delete(m, key)` for `m : map[string]chan bool`. -/
def deletePair (m : List (String × Chan)) (key : String) : List (String × Chan) :=
  m.filter (fun e => e.1 ≠ key)

/-- The keys a `range` over the map visits. -/
def pairKeys (m : List (String × Chan)) : List String :=
  m.map Prod.fst

/-- The statement `delete(client.Subscriptions, pair)`. -/
def deleteSubscription (s : State) (client : ClientId) (pair : String) : State :=
  { s with Subscriptions :=
      Function.update s.Subscriptions client ((s.Subscriptions client).filter (fun p => p ≠ pair)) }

/-- The statement `client.Subscriptions[pair] = true`. -/
def setSubscription (s : State) (client : ClientId) (pair : String) : State :=
  if pair ∈ s.Subscriptions client then s
  else { s with Subscriptions :=
      Function.update s.Subscriptions client (s.Subscriptions client ++ [pair]) }

/-- The statement `delete(subscribedClients[pair], client)`; a no-op on a nil inner map. -/
def deleteSubscriber (s : State) (pair : String) (client : ClientId) : State :=
  match s.subscribedClients pair with
  | none => s
  | some m =>
    { s with subscribedClients :=
        Function.update s.subscribedClients pair (some (m.filter (fun c => c ≠ client))) }

/-- The expression `len(subscribedClients[pair])`; the length of a nil map is 0. -/
def subscriberCount (s : State) (pair : String) : Nat :=
  match s.subscribedClients pair with
  | none => 0
  | some m => m.length

/-- The statement `delete(subscribedClients, pair)`. -/
def deleteRegistryKey (s : State) (pair : String) : State :=
  { s with subscribedClients := Function.update s.subscribedClients pair none }

/-- The statement `subscribedClients[pair][client] = true` on a non-nil inner map. -/
def addSubscriber (s : State) (pair : String) (client : ClientId) : State :=
  match s.subscribedClients pair with
  | none => s
  | some m =>
    if client ∈ m then s
    else { s with subscribedClients := Function.update s.subscribedClients pair (some (m ++ [client])) }

/-- The call `client.Conn.WriteMessage(websocket.TextMessage, text)`. -/
def writeMessage (s : State) (client : ClientId) (text : String) : State :=
  { s with written := s.written ++ [(client, text)] }

/-! ## Channel send -/

/-- The first feed that is in its receive loop with `quit = ch` takes the value
and leaves the loop; `none` when no such feed exists.  (When several feeds
poll one channel Go picks any of them; the earliest started is taken here.) -/
def consume : List Feed → Chan → Option (List Feed)
  | [], _ => none
  | f :: fs, ch =>
    if f.quit = ch ∧ f.status = FeedStatus.running then
      some ({ f with status := FeedStatus.closing } :: fs)
    else (consume fs ch).map (fun r => f :: r)

/-- The statement `ch <- true` on an unbuffered channel.  A send on the nil
channel blocks forever; a send on a channel no running feed polls blocks.
`none` is "blocked". -/
def send (s : State) (ch : Option Chan) : Option State :=
  match ch with
  | none => none
  | some q =>
    match consume s.feeds q with
    | none => none
    | some fs => some { s with feeds := fs }

/-! ## `client_handler.go` -/

/-- `json.Marshal` is taken as a parameter `marshal`; `PushMessage` writes the
marshalled message to every client of `subscribedClients[symbol]`. -/
def PushMessage (marshal : Message → String) (s : State) (symbol : String) (message : Message) :
    State :=
  ((s.subscribedClients symbol).getD []).foldl
    (fun st client => writeMessage st client (marshal message)) s

/-- `func (client *Client) SubscribeToPair(pair string) bool`. -/
def SubscribeToPair (s : State) (client : ClientId) (pair : String) : State × Bool :=
  match chanOf s.subscribedPairs pair with
  | none =>
    let s1 := writeMessage s client ("Invalid pair: " ++ pair)
    ({ s1 with subscribedPairs := deletePair s1.subscribedPairs pair }, false)
  | some ch =>
    let s1 :=
      if s.subscribedClients pair = none then
        { s with
            subscribedClients := Function.update s.subscribedClients pair (some [])
            feeds := s.feeds ++ [{ symbol := pair, quit := ch, status := FeedStatus.running }] }
      else s
    (addSubscriber s1 pair client, true)

/-- `func (client *Client) UnsubscribeFromPair(pair string, isAuto bool)`. -/
def UnsubscribeFromPair (s : State) (client : ClientId) (pair : String) (isAuto : Bool) :
    Outcome :=
  let s1 := deleteSubscription s client pair
  let s2 := deleteSubscriber s1 pair client
  let notice := "Unsubscribed from " ++ pair ++ " since pair is no longer in top 150"
  if subscriberCount s2 pair = 0 then
    let s3 := deleteRegistryKey s2 pair
    match send s3 (chanOf s3.subscribedPairs pair) with
    | none => Outcome.parked s3 (chanOf s3.subscribedPairs pair)
    | some s4 => Outcome.done (if isAuto then writeMessage s4 client notice else s4)
  else Outcome.done (if isAuto then writeMessage s2 client notice else s2)

/-- The loop `for client := range subscribedClients[symbol]` of `ClosePair`,
over the entries the inner map had at loop entry. -/
def closeLoop (symbol : String) : List ClientId → State → Outcome
  | [], s => Outcome.done s
  | client :: rest, s =>
    match UnsubscribeFromPair s client symbol true with
    | Outcome.done s1 => closeLoop symbol rest s1
    | Outcome.parked s1 ch => Outcome.parked s1 ch

/-- `func ClosePair(symbol string)`. -/
def ClosePair (s : State) (symbol : String) : Outcome :=
  match closeLoop symbol ((s.subscribedClients symbol).getD []) s with
  | Outcome.done s1 => Outcome.done (deleteRegistryKey s1 symbol)
  | Outcome.parked s1 ch => Outcome.parked s1 ch

/-- First loop of the `SUBSCRIBE` branch of `handleClient`:
`for _, pair := range clientMessage.Pairs`. -/
def subscribeLoop (client : ClientId) : List String → State → State
  | [], s => s
  | pair :: rest, s =>
    if pair ∈ s.Subscriptions client then
      subscribeLoop client rest (deleteSubscription s client pair)
    else
      let s1 := deleteSubscription s client pair
      let r := SubscribeToPair s1 client pair
      let s2 := if r.2 = false then writeMessage r.1 client ("Invalid pair: " ++ pair) else r.1
      subscribeLoop client rest s2

/-- Second loop of the `SUBSCRIBE` branch: `for pair := range client.Subscriptions`
with body `UnsubscribeFromPair(pair, false); delete(client.Subscriptions, pair)`.
The list is the keys at loop entry; a key deleted before it is reached is not
visited (Go's rule for `range` over a map). -/
def unsubscribeLoop (client : ClientId) : List String → State → Outcome
  | [], s => Outcome.done s
  | pair :: rest, s =>
    if pair ∈ s.Subscriptions client then
      match UnsubscribeFromPair s client pair false with
      | Outcome.done s1 => unsubscribeLoop client rest (deleteSubscription s1 client pair)
      | Outcome.parked s1 ch => Outcome.parked s1 ch
    else unsubscribeLoop client rest s

/-- Third loop of the `SUBSCRIBE` branch: `client.Subscriptions[pair] = true`
for every pair of the request. -/
def recordLoop (client : ClientId) : List String → State → State
  | [], s => s
  | pair :: rest, s => recordLoop client rest (setSubscription s client pair)

/-- One iteration of the read loop of `handleClient` on a request that
unmarshalled to `clientMessage`. -/
def handleClient (s : State) (client : ClientId) (clientMessage : ClientMessage) : Outcome :=
  if clientMessage.Method = "SUBSCRIBE" then
    let s1 := subscribeLoop client clientMessage.Pairs s
    match unsubscribeLoop client (s1.Subscriptions client) s1 with
    | Outcome.done s2 => Outcome.done (recordLoop client clientMessage.Pairs s2)
    | Outcome.parked s2 ch => Outcome.parked s2 ch
  else Outcome.done s

/-- The loop of the deferred function of `handleClient`:
`for pair := range client.Subscriptions { client.UnsubscribeFromPair(pair, false) }`. -/
def deferLoop (client : ClientId) : List String → State → Outcome
  | [], s => Outcome.done s
  | pair :: rest, s =>
    if pair ∈ s.Subscriptions client then
      match UnsubscribeFromPair s client pair false with
      | Outcome.done s1 => deferLoop client rest s1
      | Outcome.parked s1 ch => Outcome.parked s1 ch
    else deferLoop client rest s

/-- The deferred function of `handleClient`, run when `ReadMessage` fails. -/
def handleClientDeferred (s : State) (client : ClientId) : Outcome :=
  deferLoop client (s.Subscriptions client) s

/-! ## `cmd/main.go` -/

/-- First loop of `updateTop150`: `for symbol := range top150`. -/
def addLoop : List String → State → State
  | [], s => s
  | symbol :: rest, s =>
    if chanOf s.subscribedPairs symbol = none then
      addLoop rest
        { s with
            subscribedPairs := s.subscribedPairs ++ [(symbol, s.nextChan)]
            nextChan := s.nextChan + 1 }
    else addLoop rest s

/-- Second loop of `updateTop150`: `for symbol := range CurrentTop150`, over the
keys at loop entry (a key deleted before it is reached is not visited). -/
def evictLoop (top150 : List String) : List String → State → Outcome
  | [], s => Outcome.done s
  | symbol :: rest, s =>
    if symbol ∈ pairKeys s.subscribedPairs then
      if symbol ∉ top150 then
        match send s (chanOf s.subscribedPairs symbol) with
        | none => Outcome.parked s (chanOf s.subscribedPairs symbol)
        | some s1 =>
          evictLoop top150 rest
            { s1 with subscribedPairs := deletePair s1.subscribedPairs symbol }
      else evictLoop top150 rest s
    else evictLoop top150 rest s

/-- `func updateTop150()`, for a call of `top150.GetTop150()` that returned the
set `top150` and no error. -/
def updateTop150 (s : State) (top150 : List String) : Outcome :=
  let s1 := addLoop top150 s
  evictLoop top150 (pairKeys s1.subscribedPairs) s1

/-! ## `binance_subscribe.go` -/

/-- What one pass through the `default:` case of the receive loop reads:
`conn.ReadMessage()` failed, returned a ping, returned bytes that do not
unmarshal, or returned bytes that unmarshal to a `Message`. -/
inductive Frame where
  | readError
  | ping
  | malformed
  | ticker (message : Message)
deriving DecidableEq, Repr

/-- The `default:` case of the receive loop of `SubscribeToBinanceWebSocket`
over the frames read, with the local `LastMessage`; the result lists the calls
`go PushMessage(symbol, message)` in order.  No statement of the loop assigns
to `LastMessage`. -/
def receiveLoop (symbol : String) (LastMessage : Message) : List Frame → List (String × Message)
  | [] => []
  | Frame.readError :: rest => receiveLoop symbol LastMessage rest
  | Frame.ping :: rest => receiveLoop symbol LastMessage rest
  | Frame.malformed :: rest => receiveLoop symbol LastMessage rest
  | Frame.ticker message :: rest =>
    if message = LastMessage then receiveLoop symbol LastMessage rest
    else (symbol, message) :: receiveLoop symbol LastMessage rest

/-- The broadcasts `SubscribeToBinanceWebSocket(symbol, quit)` issues for the
frames it reads before `quit` fires: `var LastMessage Message` is the zero value. -/
def SubscribeToBinanceWebSocket (symbol : String) (frames : List Frame) : List (String × Message) :=
  receiveLoop symbol { Symbol := "", BestBid := "", BestAsk := "" } frames

/-! ## The process as a transition system -/

/-- State after `main` and `WebSocketServer` have made the two empty maps. -/
def init : State where
  subscribedPairs := []
  subscribedClients := fun _ => none
  Subscriptions := fun _ => []
  feeds := []
  written := []
  nextChan := 0
  clientStatus := fun _ => ClientStatus.reading
  refresherParked := false

/-- Sets the status of feed `i`. -/
def setFeedStatus (fs : List Feed) (i : Nat) (st : FeedStatus) : List Feed :=
  fs.modify (fun f => { f with status := st }) i

/-- The atomic steps of the process. -/
inductive Action where
  /-- A client's read loop receives a request and processes it. -/
  | request (client : ClientId) (clientMessage : ClientMessage)
  /-- A client's `ReadMessage` fails and the deferred function runs. -/
  | disconnect (client : ClientId)
  /-- A tick: `updateTop150` with the set `GetTop150` returned. -/
  | refresh (top150 : List String)
  /-- Feed `i`, which has received from `quit`, runs `ClosePair` and returns. -/
  | feedQuit (i : Nat)

/-- One atomic step.  A step of a goroutine that is not at the point the step
starts from leaves the state as it is.  A goroutine parked on a send takes no
further step: in the program a feed started later on the same non-nil channel
would receive the pending value in its first `select`, which these steps do
not model, so they describe runs in which no feed is started on a channel a
goroutine is parked on. -/
def step (s : State) : Action → State
  | Action.request client clientMessage =>
    if s.clientStatus client = ClientStatus.reading then
      match handleClient s client clientMessage with
      | Outcome.done t => t
      | Outcome.parked t _ =>
        { t with clientStatus := Function.update t.clientStatus client ClientStatus.parked }
    else s
  | Action.disconnect client =>
    if s.clientStatus client = ClientStatus.reading then
      match handleClientDeferred s client with
      | Outcome.done t =>
        { t with clientStatus := Function.update t.clientStatus client ClientStatus.closed }
      | Outcome.parked t _ =>
        { t with clientStatus := Function.update t.clientStatus client ClientStatus.parked }
    else s
  | Action.refresh top150 =>
    if s.refresherParked = false then
      match updateTop150 s top150 with
      | Outcome.done t => t
      | Outcome.parked t _ => { t with refresherParked := true }
    else s
  | Action.feedQuit i =>
    match s.feeds.get? i with
    | none => s
    | some f =>
      if f.status = FeedStatus.closing then
        match ClosePair s f.symbol with
        | Outcome.done t => { t with feeds := setFeedStatus t.feeds i FeedStatus.terminated }
        | Outcome.parked t _ => { t with feeds := setFeedStatus t.feeds i FeedStatus.parked }
      else s

/-- Runs a list of steps. -/
def run (s : State) (as : List Action) : State :=
  as.foldl step s

/-- Number of feeds for `symbol` that were started and have not returned. -/
def liveFeeds (s : State) (symbol : String) : Nat :=
  (s.feeds.filter (fun f => f.symbol = symbol ∧ f.status ≠ FeedStatus.terminated)).length

/-- Number of times `text` was written to `client`. -/
def writtenCount (s : State) (client : ClientId) (text : String) : Nat :=
  (s.written.filter (fun w => w = (client, text))).length

/-- Membership of `client` in `subscribedClients[pair]`. -/
def subscribed (s : State) (client : ClientId) (pair : String) : Prop :=
  ∃ m, s.subscribedClients pair = some m ∧ client ∈ m

instance (s : State) (client : ClientId) (pair : String) : Decidable (subscribed s client pair) :=
  match h : s.subscribedClients pair with
  | none => isFalse (by rintro ⟨m, hm, _⟩; rw [h] at hm; cases hm)
  | some m =>
    if hc : client ∈ m then isTrue ⟨m, h, hc⟩
    else isFalse (by rintro ⟨m1, hm, hc1⟩; rw [h] at hm; cases hm; exact hc hc1)

/-- A `SUBSCRIBE` request for `pairs`. -/
def subscribeRequest (pairs : List String) : ClientMessage :=
  { Method := "SUBSCRIBE", Pairs := pairs }

/-- Registry entry of `pair` after `client` leaves it: the inner map without
`client`, and no entry at all when nobody is left. -/
def removeClient (client : ClientId) : Option (List ClientId) → Option (List ClientId)
  | none => none
  | some m =>
    if (m.filter (fun c => c ≠ client)).length = 0 then none
    else some (m.filter (fun c => c ≠ client))

/-- Body of the first loop of the `SUBSCRIBE` branch, for one `pair`. -/
def subscribeBody (client : ClientId) (pair : String) (s : State) : State :=
  if pair ∈ s.Subscriptions client then deleteSubscription s client pair
  else
    let s1 := deleteSubscription s client pair
    let r := SubscribeToPair s1 client pair
    if r.2 = false then writeMessage r.1 client ("Invalid pair: " ++ pair) else r.1

/-- The part of the state a channel send or a written frame does not touch. -/
structure SameMaps (s t : State) : Prop where
  pairs : t.subscribedPairs = s.subscribedPairs
  registry : t.subscribedClients = s.subscribedClients
  subs : t.Subscriptions = s.Subscriptions
  nextChan : t.nextChan = s.nextChan
  status : t.clientStatus = s.clientStatus
  refresher : t.refresherParked = s.refresherParked

/-- What `UnsubscribeFromPair` leaves in the maps, whether or not its send blocks. -/
structure UnsubEffect (s t : State) (client : ClientId) (pair : String) : Prop where
  pairs : t.subscribedPairs = s.subscribedPairs
  registry : t.subscribedClients =
    Function.update s.subscribedClients pair (removeClient client (s.subscribedClients pair))
  subs : t.Subscriptions =
    Function.update s.Subscriptions client ((s.Subscriptions client).filter (fun p => p ≠ pair))
  nextChan : t.nextChan = s.nextChan
  status : t.clientStatus = s.clientStatus
  refresher : t.refresherParked = s.refresherParked

/-- Every registry membership of `client` is recorded in `client.Subscriptions`. -/
def Agrees (s : State) (client : ClientId) : Prop :=
  ∀ p, subscribed s client p → p ∈ s.Subscriptions client

/-- `Agrees` for every client whose goroutine is in `ReadMessage`. -/
def Inv (s : State) : Prop :=
  ∀ client, s.clientStatus client = ClientStatus.reading → Agrees s client

/-- The channel a parked body is blocked on (`some none` is the nil channel);
`none` when the body ran to its end. -/
def Outcome.blockedOn : Outcome → Option (Option Chan)
  | .done _ => none
  | .parked _ ch => some ch

/-- Dedup as the specification words it: a payload is forwarded unless it is
identical to the payload last forwarded, and a forwarded payload is recorded
as the last one. -/
def specReceiveLoop (symbol : String) (LastMessage : Message) :
    List Frame → List (String × Message)
  | [] => []
  | Frame.readError :: rest => specReceiveLoop symbol LastMessage rest
  | Frame.ping :: rest => specReceiveLoop symbol LastMessage rest
  | Frame.malformed :: rest => specReceiveLoop symbol LastMessage rest
  | Frame.ticker message :: rest =>
    if message = LastMessage then specReceiveLoop symbol LastMessage rest
    else (symbol, message) :: specReceiveLoop symbol message rest

/-! ## Concrete states -/

/-- The universe after a first tick that returned `BTCUSDT` and `ETHUSDT`. -/
def universe2 : State :=
  step init (Action.refresh ["BTCUSDT", "ETHUSDT"])

/-- A ticker payload. -/
def tick : Message :=
  { Symbol := "BTCUSDT", BestBid := "67000.10", BestAsk := "67000.20" }

/-- Clients 1 and 2 both hold `ETHUSDT`; feed 0 is the feed of `ETHUSDT`. -/
def twoSubscribers : State :=
  run universe2
    [Action.request 1 (subscribeRequest ["ETHUSDT"]),
     Action.request 2 (subscribeRequest ["ETHUSDT"])]

/-- From `twoSubscribers`: a tick drops `ETHUSDT`, which feed 0 receives. -/
def evicted : State :=
  step twoSubscribers (Action.refresh ["BTCUSDT"])

/-- Client 0 holds `BTCUSDT` and `ETHUSDT`, client 1 holds `ETHUSDT`. -/
def sharedSubscribers : State :=
  run universe2
    [Action.request 0 (subscribeRequest ["BTCUSDT", "ETHUSDT"]),
     Action.request 1 (subscribeRequest ["ETHUSDT"])]

/-- Client 0 holds `ETHUSDT`; a tick drops `ETHUSDT`; its feed runs `ClosePair`;
a later tick brings `ETHUSDT` back and client 1 subscribes to it. -/
def evictedAndBack : State :=
  run universe2
    [Action.request 0 (subscribeRequest ["ETHUSDT"]),
     Action.refresh ["BTCUSDT"],
     Action.feedQuit 0,
     Action.refresh ["BTCUSDT", "ETHUSDT"],
     Action.request 1 (subscribeRequest ["ETHUSDT"])]

/-- Client 0 moves from `ETHUSDT` to `BTCUSDT`, and client 1 subscribes to
`ETHUSDT` before the cancelled feed of `ETHUSDT` has run `ClosePair`. -/
def resubscribedEarly : State :=
  run universe2
    [Action.request 0 (subscribeRequest ["ETHUSDT"]),
     Action.request 0 (subscribeRequest ["BTCUSDT"]),
     Action.request 1 (subscribeRequest ["ETHUSDT"])]

/-- Client 0 holds `ETHUSDT`, whose feed is running. -/
def oneSubscriber : State :=
  step universe2 (Action.request 0 (subscribeRequest ["ETHUSDT"]))

/-- Client 0 has asked for `XRPUSDT`, which is not in the universe. -/
def rejected : State :=
  step universe2 (Action.request 0 (subscribeRequest ["XRPUSDT"]))

/-- Client 0 has asked for `XRPUSDT`, which is not in the universe, and `BTCUSDT`. -/
def mixed : State :=
  step universe2 (Action.request 0 (subscribeRequest ["XRPUSDT", "BTCUSDT"]))

/-- As `mixed`, with the two instruments named in the other order. -/
def mixedReversed : State :=
  step universe2 (Action.request 0 (subscribeRequest ["BTCUSDT", "XRPUSDT"]))

/-! ## Lemmas on the map primitives -/

theorem chanOf_deletePair (m : List (String × Chan)) (k p : String) :
    chanOf (deletePair m k) p = if p = k then none else chanOf m p := by
  induction m with
  | nil => simp [deletePair, chanOf]
  | cons e rest ih =>
    obtain ⟨k1, ch⟩ := e
    simp only [deletePair, List.filter_cons] at ih ⊢
    by_cases hk : k1 = k <;> by_cases hp : k1 = p <;> by_cases hpk : p = k <;>
      simp_all [chanOf]

theorem mem_pairKeys_iff (m : List (String × Chan)) (p : String) :
    p ∈ pairKeys m ↔ chanOf m p ≠ none := by
  induction m with
  | nil => simp [pairKeys, chanOf]
  | cons e rest ih =>
    obtain ⟨k1, ch⟩ := e
    unfold pairKeys at ih ⊢
    by_cases hp : k1 = p
    · simp [chanOf, hp]
    · have : ¬ p = k1 := fun h => hp h.symm
      simp [chanOf, hp, this, ih]

theorem chanOf_append_single (m : List (String × Chan)) (k p : String) (ch : Chan) :
    chanOf (m ++ [(k, ch)]) p =
      match chanOf m p with
      | some c => some c
      | none => if k = p then some ch else none := by
  induction m with
  | nil => simp [chanOf]
  | cons e rest ih =>
    obtain ⟨k1, c1⟩ := e
    by_cases hp : k1 = p
    · simp [chanOf, hp]
    · simp [chanOf, hp, ih]

theorem deletePair_of_absent (m : List (String × Chan)) (k : String)
    (h : chanOf m k = none) : deletePair m k = m := by
  unfold deletePair
  rw [List.filter_eq_self]
  intro e he
  have hk : ¬ e.1 ∈ pairKeys m → False := fun hn => hn (List.mem_map_of_mem Prod.fst he)
  by_contra hcon
  have heq : e.1 = k := by simpa using hcon
  have : k ∈ pairKeys m := heq ▸ List.mem_map_of_mem Prod.fst he
  exact (mem_pairKeys_iff m k).1 this h

/-! ## `SubscribeToPair` -/

theorem SubscribeToPair_of_absent (s : State) (client : ClientId) (pair : String)
    (h : chanOf s.subscribedPairs pair = none) :
    SubscribeToPair s client pair =
      ({ writeMessage s client ("Invalid pair: " ++ pair) with
          subscribedPairs := deletePair s.subscribedPairs pair }, false) := by
  unfold SubscribeToPair
  rw [h]
  rfl

theorem addSubscriber_subscribed (s : State) (client : ClientId) (pair : String)
    (h : s.subscribedClients pair ≠ none) : subscribed (addSubscriber s pair client) client pair := by
  unfold addSubscriber
  cases hm : s.subscribedClients pair with
  | none => exact absurd hm h
  | some m =>
    by_cases hc : client ∈ m
    · simp only [hc, if_true]
      exact ⟨m, hm, hc⟩
    · simp only [hc, if_false]
      exact ⟨m ++ [client], by simp, by simp⟩

/-- C5. `SubscribeToPair` returns false exactly when the instrument is not a key
of `subscribedPairs`; a rejected call leaves the registry, the universe map
(hence its key set) and the list of started feeds as they were; an accepted
call leaves the client a member of `subscribedClients[pair]`. -/
theorem SubscribeToPair_rejection (s : State) (client : ClientId) (pair : String) :
    ((SubscribeToPair s client pair).2 = false ↔ pair ∉ pairKeys s.subscribedPairs) ∧
    ((SubscribeToPair s client pair).2 = false →
      (SubscribeToPair s client pair).1.subscribedClients = s.subscribedClients ∧
      (SubscribeToPair s client pair).1.subscribedPairs = s.subscribedPairs ∧
      pairKeys (SubscribeToPair s client pair).1.subscribedPairs = pairKeys s.subscribedPairs ∧
      (SubscribeToPair s client pair).1.feeds = s.feeds) ∧
    ((SubscribeToPair s client pair).2 = true →
      subscribed (SubscribeToPair s client pair).1 client pair) := by
  cases h : chanOf s.subscribedPairs pair with
  | none =>
    have hk : pair ∉ pairKeys s.subscribedPairs := fun hin =>
      (mem_pairKeys_iff _ _).1 hin h
    rw [SubscribeToPair_of_absent s client pair h]
    refine ⟨⟨fun _ => hk, fun _ => rfl⟩, fun _ => ?_, fun hf => by cases hf⟩
    have hd : deletePair s.subscribedPairs pair = s.subscribedPairs :=
      deletePair_of_absent _ _ h
    exact ⟨rfl, hd, by rw [show ((⟨deletePair s.subscribedPairs pair, _, _, _, _, _, _, _⟩ :
      State).subscribedPairs) = deletePair s.subscribedPairs pair from rfl, hd], rfl⟩
  | some ch =>
    have hk : pair ∈ pairKeys s.subscribedPairs := (mem_pairKeys_iff _ _).2 (by simp [h])
    have hv : (SubscribeToPair s client pair).2 = true := by
      unfold SubscribeToPair; rw [h]
    refine ⟨⟨fun hf => (by rw [hv] at hf; cases hf), fun hn => absurd hk hn⟩,
      fun hf => (by rw [hv] at hf; cases hf), fun _ => ?_⟩
    unfold SubscribeToPair
    rw [h]
    apply addSubscriber_subscribed
    by_cases hr : s.subscribedClients pair = none
    · simp [hr]
    · simp [hr]

/-- C5 at a concrete input: `XRPUSDT` is rejected in the universe `BTCUSDT`, `ETHUSDT`. -/
theorem SubscribeToPair_rejection_witness :
    (SubscribeToPair (step init (Action.refresh ["BTCUSDT", "ETHUSDT"])) 0 "XRPUSDT").2 = false ∧
    (SubscribeToPair (step init (Action.refresh ["BTCUSDT", "ETHUSDT"])) 0 "XRPUSDT").1.feeds = [] ∧
    subscribed (SubscribeToPair (step init (Action.refresh ["BTCUSDT", "ETHUSDT"])) 0 "BTCUSDT").1
      0 "BTCUSDT" :=
  ⟨((SubscribeToPair_rejection (step init (Action.refresh ["BTCUSDT", "ETHUSDT"])) 0 "XRPUSDT").1).2
      (by decide),
   (((SubscribeToPair_rejection (step init (Action.refresh ["BTCUSDT", "ETHUSDT"])) 0 "XRPUSDT").2).1
      (by decide)).2.2.2,
   ((SubscribeToPair_rejection (step init (Action.refresh ["BTCUSDT", "ETHUSDT"])) 0 "BTCUSDT").2).2
      (by decide)⟩

/-! ## `updateTop150` -/

theorem addLoop_nextChan_le (top150 : List String) (s : State) :
    s.nextChan ≤ (addLoop top150 s).nextChan := by
  induction top150 generalizing s with
  | nil => exact le_rfl
  | cons symbol rest ih =>
    unfold addLoop
    split
    · have h1 : s.nextChan + 1 ≤ _ := ih
        { s with
            subscribedPairs := s.subscribedPairs ++ [(symbol, s.nextChan)]
            nextChan := s.nextChan + 1 }
      exact le_trans (Nat.le_succ _) h1
    · exact ih s

theorem addLoop_chanOf_preserved (top150 : List String) (s : State) (p : String) (ch : Chan)
    (h : chanOf s.subscribedPairs p = some ch) :
    chanOf (addLoop top150 s).subscribedPairs p = some ch := by
  induction top150 generalizing s with
  | nil => exact h
  | cons symbol rest ih =>
    unfold addLoop
    split
    · apply ih
      simp only [chanOf_append_single, h]
    · exact ih s h

theorem addLoop_chanOf_of_mem (top150 : List String) (s : State) (p : String)
    (h : p ∈ top150) : chanOf (addLoop top150 s).subscribedPairs p ≠ none := by
  induction top150 generalizing s with
  | nil => cases h
  | cons symbol rest ih =>
    unfold addLoop
    by_cases hp : p = symbol
    · subst hp
      split
      · rename_i hn
        rw [addLoop_chanOf_preserved rest _ p s.nextChan (by simp [chanOf_append_single, hn])]
        simp
      · rename_i hn
        cases hc : chanOf s.subscribedPairs p with
        | none => exact absurd hc hn
        | some ch => rw [addLoop_chanOf_preserved rest s p ch hc]; simp
    · have hr : p ∈ rest := by
        cases h with
        | head => exact absurd rfl hp
        | tail _ h1 => exact h1
      split
      · exact ih _ hr
      · exact ih s hr

theorem addLoop_chanOf_new (top150 : List String) (s : State) (p : String) (ch : Chan)
    (h : chanOf s.subscribedPairs p = none)
    (ht : chanOf (addLoop top150 s).subscribedPairs p = some ch) :
    p ∈ top150 ∧ s.nextChan ≤ ch ∧ ch < (addLoop top150 s).nextChan := by
  induction top150 generalizing s with
  | nil => simp [addLoop, h] at ht
  | cons symbol rest ih =>
    unfold addLoop at ht ⊢
    by_cases hp : symbol = p
    · subst hp
      simp only [h, if_true] at ht ⊢
      have h1 : chanOf (s.subscribedPairs ++ [(symbol, s.nextChan)]) symbol = some s.nextChan := by
        simp [chanOf_append_single, h]
      rw [addLoop_chanOf_preserved rest _ symbol s.nextChan h1] at ht
      have hch : s.nextChan = ch := by simpa using ht
      subst hch
      have h2 : s.nextChan + 1 ≤ _ := addLoop_nextChan_le rest
        { s with
            subscribedPairs := s.subscribedPairs ++ [(symbol, s.nextChan)]
            nextChan := s.nextChan + 1 }
      exact ⟨List.mem_cons_self _ _, le_rfl, lt_of_lt_of_le (Nat.lt_succ_self _) h2⟩
    · split at ht
      · rename_i hn
        simp only [hn, if_true]
        have h1 : chanOf (s.subscribedPairs ++ [(symbol, s.nextChan)]) p = none := by
          simp [chanOf_append_single, h, hp]
        obtain ⟨hm, hle, hlt⟩ := ih _ h1 ht
        exact ⟨List.mem_cons_of_mem _ hm, le_trans (Nat.le_succ _) hle, hlt⟩
      · rename_i hn
        simp only [hn, if_false]
        obtain ⟨hm, hle, hlt⟩ := ih s h ht
        exact ⟨List.mem_cons_of_mem _ hm, hle, hlt⟩

theorem addLoop_chanOf_injective (top150 : List String) (s : State) (p q : String) (ch : Chan)
    (hp : chanOf s.subscribedPairs p = none) (hq : chanOf s.subscribedPairs q = none)
    (htp : chanOf (addLoop top150 s).subscribedPairs p = some ch)
    (htq : chanOf (addLoop top150 s).subscribedPairs q = some ch) : p = q := by
  induction top150 generalizing s with
  | nil => simp [addLoop, hp] at htp
  | cons symbol rest ih =>
    unfold addLoop at htp htq
    split at htp
    · rename_i hn
      simp only [hn, if_true] at htq
      by_cases h1 : symbol = p
      · by_cases h2 : symbol = q
        · exact h1.symm.trans h2
        · exfalso
          have e1 : chanOf (s.subscribedPairs ++ [(symbol, s.nextChan)]) p = some s.nextChan := by
            simp [chanOf_append_single, hp, h1]
          rw [addLoop_chanOf_preserved rest _ p s.nextChan e1] at htp
          have e2 : chanOf (s.subscribedPairs ++ [(symbol, s.nextChan)]) q = none := by
            simp [chanOf_append_single, hq, h2]
          have hge : s.nextChan + 1 ≤ ch := (addLoop_chanOf_new rest _ q ch e2 htq).2.1
          have hch : s.nextChan = ch := by simpa using htp
          rw [← hch] at hge
          exact Nat.not_succ_le_self _ hge
      · by_cases h2 : symbol = q
        · exfalso
          have e1 : chanOf (s.subscribedPairs ++ [(symbol, s.nextChan)]) q = some s.nextChan := by
            simp [chanOf_append_single, hq, h2]
          rw [addLoop_chanOf_preserved rest _ q s.nextChan e1] at htq
          have e2 : chanOf (s.subscribedPairs ++ [(symbol, s.nextChan)]) p = none := by
            simp [chanOf_append_single, hp, h1]
          have hge : s.nextChan + 1 ≤ ch := (addLoop_chanOf_new rest _ p ch e2 htp).2.1
          have hch : s.nextChan = ch := by simpa using htq
          rw [← hch] at hge
          exact Nat.not_succ_le_self _ hge
        · have e1 : chanOf (s.subscribedPairs ++ [(symbol, s.nextChan)]) p = none := by
            simp [chanOf_append_single, hp, h1]
          have e2 : chanOf (s.subscribedPairs ++ [(symbol, s.nextChan)]) q = none := by
            simp [chanOf_append_single, hq, h2]
          exact ih _ e1 e2 htp htq
    · rename_i hn
      simp only [hn, if_false] at htq
      exact ih s hp hq htp htq

theorem send_fields (s t : State) (ch : Option Chan) (h : send s ch = some t) :
    t.subscribedPairs = s.subscribedPairs ∧ t.subscribedClients = s.subscribedClients ∧
    t.Subscriptions = s.Subscriptions ∧ t.written = s.written ∧ t.nextChan = s.nextChan ∧
    t.clientStatus = s.clientStatus ∧ t.refresherParked = s.refresherParked := by
  unfold send at h
  cases ch with
  | none => cases h
  | some q =>
    simp only at h
    cases hc : consume s.feeds q with
    | none => rw [hc] at h; cases h
    | some fs =>
      rw [hc] at h
      cases h
      exact ⟨rfl, rfl, rfl, rfl, rfl, rfl, rfl⟩

theorem evictLoop_chanOf (top150 rest : List String) (s t : State)
    (h : evictLoop top150 rest s = Outcome.done t) (p : String) :
    chanOf t.subscribedPairs p =
      if p ∈ rest ∧ p ∉ top150 then none else chanOf s.subscribedPairs p := by
  induction rest generalizing s with
  | nil =>
    simp only [evictLoop] at h
    cases h
    simp
  | cons symbol rest ih =>
    unfold evictLoop at h
    by_cases hk : symbol ∈ pairKeys s.subscribedPairs
    · simp only [hk, if_true] at h
      by_cases hn : symbol ∉ top150
      · simp only [hn, not_false_eq_true, if_true] at h
        cases hs : send s (chanOf s.subscribedPairs symbol) with
        | none => rw [hs] at h; cases h
        | some s1 =>
          rw [hs] at h
          simp only at h
          rw [ih _ h]
          simp only [chanOf_deletePair, (send_fields s s1 _ hs).1]
          by_cases hp : p = symbol
          · subst hp; simp [hn]
          · simp [hp]
      · simp only [hn, if_false] at h
        rw [ih _ h]
        have hin : symbol ∈ top150 := by simpa using hn
        by_cases hp : p = symbol
        · subst hp; simp [hin]
        · simp [hp]
    · simp only [hk, if_false] at h
      rw [ih _ h]
      have hnone : chanOf s.subscribedPairs symbol = none := by
        by_contra hc
        exact hk ((mem_pairKeys_iff _ _).2 hc)
      by_cases hp : p = symbol
      · subst hp
        by_cases hr : p ∈ rest ∧ p ∉ top150
        · simp [hr]
        · by_cases hq : p ∉ top150
          · simp [hq, hnone]
          · simp [hq]
      · simp [hp]

theorem evictLoop_nextChan (top150 rest : List String) (s t : State)
    (h : evictLoop top150 rest s = Outcome.done t) : t.nextChan = s.nextChan := by
  induction rest generalizing s with
  | nil =>
    simp only [evictLoop] at h
    cases h
    rfl
  | cons symbol rest ih =>
    unfold evictLoop at h
    split at h
    · split at h
      · cases hs : send s (chanOf s.subscribedPairs symbol) with
        | none => rw [hs] at h; cases h
        | some s1 =>
          rw [hs] at h
          simp only at h
          rw [ih _ h]
          exact (send_fields s s1 _ hs).2.2.2.2.1
      · exact ih _ h
    · exact ih _ h

/-- What a call of `updateTop150` that runs to its end leaves in `CurrentTop150`:
the keys are exactly `top150`; an instrument that stays keeps its channel; an
instrument that enters gets a channel made during this call, and no two
entering instruments share one; an instrument that leaves has no entry.
Nothing is said here about a call that blocks on its send. -/
theorem updateTop150_reconciles (s t : State) (top150 : List String)
    (h : updateTop150 s top150 = Outcome.done t) :
    (∀ p, p ∈ pairKeys t.subscribedPairs ↔ p ∈ top150) ∧
    (∀ p ch, p ∈ top150 → chanOf s.subscribedPairs p = some ch →
      chanOf t.subscribedPairs p = some ch) ∧
    (∀ p, p ∈ top150 → p ∉ pairKeys s.subscribedPairs →
      ∃ ch, chanOf t.subscribedPairs p = some ch ∧ s.nextChan ≤ ch ∧ ch < t.nextChan ∧
        ∀ q, q ∉ pairKeys s.subscribedPairs → chanOf t.subscribedPairs q = some ch → q = p) ∧
    (∀ p, p ∈ pairKeys s.subscribedPairs → p ∉ top150 →
      p ∉ pairKeys t.subscribedPairs ∧ chanOf t.subscribedPairs p = none) := by
  unfold updateTop150 at h
  simp only at h
  have hch := evictLoop_chanOf top150 _ _ t h
  have hnx := evictLoop_nextChan top150 _ _ t h
  have hin : ∀ p, p ∈ top150 →
      chanOf t.subscribedPairs p = chanOf (addLoop top150 s).subscribedPairs p := by
    intro p hp
    rw [hch p]
    simp [hp]
  have hout : ∀ p, p ∉ top150 → chanOf t.subscribedPairs p = none := by
    intro p hp
    rw [hch p]
    by_cases hk : p ∈ pairKeys (addLoop top150 s).subscribedPairs
    · simp [hk, hp]
    · have hnone : chanOf (addLoop top150 s).subscribedPairs p = none := by
        by_contra hc
        exact hk ((mem_pairKeys_iff _ _).2 hc)
      simp [hk, hnone]
  refine ⟨fun p => ?_, fun p ch hp hs => ?_, fun p hp hs => ?_, fun p _ hp => ?_⟩
  · rw [mem_pairKeys_iff]
    constructor
    · intro hne
      by_contra hp
      exact hne (hout p hp)
    · intro hp
      rw [hin p hp]
      exact addLoop_chanOf_of_mem top150 s p hp
  · rw [hin p hp]
    exact addLoop_chanOf_preserved top150 s p ch hs
  · have hnone : chanOf s.subscribedPairs p = none := by
      by_contra hc
      exact hs ((mem_pairKeys_iff _ _).2 hc)
    cases hc : chanOf (addLoop top150 s).subscribedPairs p with
    | none => exact absurd hc (addLoop_chanOf_of_mem top150 s p hp)
    | some ch =>
      obtain ⟨_, hle, hlt⟩ := addLoop_chanOf_new top150 s p ch hnone hc
      refine ⟨ch, by rw [hin p hp, hc], hle, by rw [hnx]; exact hlt, fun q hq hqc => ?_⟩
      have hqn : chanOf s.subscribedPairs q = none := by
        by_contra hcq
        exact hq ((mem_pairKeys_iff _ _).2 hcq)
      have hqt : q ∈ top150 := by
        by_contra hqt
        rw [hout q hqt] at hqc
        cases hqc
      rw [hin q hqt] at hqc
      exact addLoop_chanOf_injective top150 s q p ch hqn hnone hqc hc
  · have := hout p hp
    exact ⟨fun hk => (mem_pairKeys_iff _ _).1 hk this, this⟩

/-! ## `UnsubscribeFromPair` -/

theorem SameMaps.refl (s : State) : SameMaps s s := ⟨rfl, rfl, rfl, rfl, rfl, rfl⟩

theorem SameMaps.trans {s t u : State} (h1 : SameMaps s t) (h2 : SameMaps t u) : SameMaps s u :=
  ⟨h2.pairs.trans h1.pairs, h2.registry.trans h1.registry, h2.subs.trans h1.subs,
    h2.nextChan.trans h1.nextChan, h2.status.trans h1.status, h2.refresher.trans h1.refresher⟩

theorem SameMaps.of_send {s t : State} {ch : Option Chan} (h : send s ch = some t) :
    SameMaps s t := by
  obtain ⟨h1, h2, h3, _, h5, h6, h7⟩ := send_fields s t ch h
  exact ⟨h1, h2, h3, h5, h6, h7⟩

theorem SameMaps.of_write (s : State) (client : ClientId) (text : String) :
    SameMaps s (writeMessage s client text) := ⟨rfl, rfl, rfl, rfl, rfl, rfl⟩

theorem SameMaps.of_write_if (s : State) (b : Bool) (client : ClientId) (text : String) :
    SameMaps s (if b = true then writeMessage s client text else s) := by
  cases b
  · exact SameMaps.refl s
  · exact SameMaps.of_write s client text

theorem deleteSubscriber_registry (s : State) (pair : String) (client : ClientId) :
    (deleteSubscriber s pair client).subscribedClients =
      Function.update s.subscribedClients pair
        ((s.subscribedClients pair).map (fun m => m.filter (fun c => c ≠ client))) := by
  unfold deleteSubscriber
  cases hm : s.subscribedClients pair with
  | none =>
    simp only [Option.map_none']
    rw [← hm, Function.update_eq_self]
  | some m => simp

theorem deleteSubscriber_other (s : State) (pair : String) (client : ClientId) :
    (deleteSubscriber s pair client).subscribedPairs = s.subscribedPairs ∧
    (deleteSubscriber s pair client).Subscriptions = s.Subscriptions ∧
    (deleteSubscriber s pair client).nextChan = s.nextChan ∧
    (deleteSubscriber s pair client).clientStatus = s.clientStatus ∧
    (deleteSubscriber s pair client).refresherParked = s.refresherParked ∧
    (deleteSubscriber s pair client).feeds = s.feeds ∧
    (deleteSubscriber s pair client).written = s.written := by
  unfold deleteSubscriber
  cases s.subscribedClients pair <;> exact ⟨rfl, rfl, rfl, rfl, rfl, rfl, rfl⟩

theorem UnsubscribeFromPair_effect (s : State) (client : ClientId) (pair : String)
    (isAuto : Bool) :
    UnsubEffect s (UnsubscribeFromPair s client pair isAuto).state client pair := by
  have hreg := deleteSubscriber_registry (deleteSubscription s client pair) pair client
  obtain ⟨hp, hsub, hn, hst, hr, _, _⟩ :=
    deleteSubscriber_other (deleteSubscription s client pair) pair client
  have hreg1 : (deleteSubscription s client pair).subscribedClients = s.subscribedClients := rfl
  rw [hreg1] at hreg
  unfold UnsubscribeFromPair
  simp only
  generalize hs2 : deleteSubscriber (deleteSubscription s client pair) pair client = s2 at *
  by_cases hc : subscriberCount s2 pair = 0
  · simp only [hc, if_true]
    have hrem : removeClient client (s.subscribedClients pair) = none := by
      unfold subscriberCount at hc
      rw [hreg] at hc
      simp only [Function.update_same] at hc
      cases hm : s.subscribedClients pair with
      | none => rfl
      | some m =>
        rw [hm] at hc
        simp only [Option.map_some'] at hc
        exact if_pos hc
    have h3 : UnsubEffect s (deleteRegistryKey s2 pair) client pair := by
      refine ⟨hp, ?_, hsub, hn, hst, hr⟩
      show Function.update s2.subscribedClients pair none = _
      rw [hreg, hrem, Function.update_idem]
    cases hs : send (deleteRegistryKey s2 pair) (chanOf (deleteRegistryKey s2 pair).subscribedPairs pair) with
    | none => exact h3
    | some s4 =>
      have h4 := (SameMaps.of_send hs).trans (SameMaps.of_write_if s4 isAuto client
        ("Unsubscribed from " ++ pair ++ " since pair is no longer in top 150"))
      exact ⟨h4.pairs.trans h3.pairs, h4.registry.trans h3.registry, h4.subs.trans h3.subs,
        h4.nextChan.trans h3.nextChan, h4.status.trans h3.status, h4.refresher.trans h3.refresher⟩
  · simp only [hc, if_false]
    have hrem : removeClient client (s.subscribedClients pair) =
        (s.subscribedClients pair).map (fun m => m.filter (fun c => c ≠ client)) := by
      unfold subscriberCount at hc
      rw [hreg] at hc
      simp only [Function.update_same] at hc
      cases hm : s.subscribedClients pair with
      | none => rfl
      | some m =>
        rw [hm] at hc
        simp only [Option.map_some'] at hc
        exact if_neg hc
    have h2 : UnsubEffect s s2 client pair := ⟨hp, by rw [hreg, hrem], hsub, hn, hst, hr⟩
    have h4 := SameMaps.of_write_if s2 isAuto client
        ("Unsubscribed from " ++ pair ++ " since pair is no longer in top 150")
    exact ⟨h4.pairs.trans h2.pairs, h4.registry.trans h2.registry, h4.subs.trans h2.subs,
      h4.nextChan.trans h2.nextChan, h4.status.trans h2.status, h4.refresher.trans h2.refresher⟩

/-! ## Membership in the registry -/

theorem subscribed_congr {s t : State} (h : t.subscribedClients = s.subscribedClients)
    (client : ClientId) (pair : String) : subscribed t client pair ↔ subscribed s client pair := by
  unfold subscribed
  rw [h]

theorem addSubscriber_subscribed_iff (s : State) (pair : String) (client c1 : ClientId)
    (q : String) :
    subscribed (addSubscriber s pair client) c1 q ↔
      subscribed s c1 q ∨ (c1 = client ∧ q = pair ∧ s.subscribedClients pair ≠ none) := by
  unfold addSubscriber
  cases hm : s.subscribedClients pair with
  | none => simp
  | some m =>
    by_cases hc : client ∈ m
    · simp only [hc, if_true]
      constructor
      · exact fun h => Or.inl h
      · rintro (h | ⟨h1, h2, _⟩)
        · exact h
        · subst h1; subst h2; exact ⟨m, hm, hc⟩
    · simp only [hc, if_false]
      unfold subscribed
      by_cases hq : q = pair
      · subst hq
        simp only [Function.update_same, hm, Option.some.injEq, exists_eq_left', ne_eq,
          not_false_eq_true, and_true, true_and, reduceCtorEq]
        simp only [List.mem_append, List.mem_singleton]
      · simp [Function.update_noteq hq, hq]

theorem SubscribeToPair_maps (s : State) (client : ClientId) (pair : String) :
    (SubscribeToPair s client pair).1.subscribedPairs = s.subscribedPairs ∧
    (SubscribeToPair s client pair).1.Subscriptions = s.Subscriptions ∧
    (SubscribeToPair s client pair).1.nextChan = s.nextChan ∧
    (SubscribeToPair s client pair).1.clientStatus = s.clientStatus ∧
    (SubscribeToPair s client pair).1.refresherParked = s.refresherParked := by
  cases h : chanOf s.subscribedPairs pair with
  | none =>
    rw [SubscribeToPair_of_absent s client pair h]
    exact ⟨deletePair_of_absent _ _ h, rfl, rfl, rfl, rfl⟩
  | some ch =>
    unfold SubscribeToPair
    rw [h]
    simp only
    unfold addSubscriber
    by_cases hr : s.subscribedClients pair = none
    · simp only [hr, if_true, Function.update_same]
      split <;> exact ⟨rfl, rfl, rfl, rfl, rfl⟩
    · simp only [hr, if_false]
      cases hm : s.subscribedClients pair with
      | none => exact absurd hm hr
      | some m =>
        simp only
        split <;> exact ⟨rfl, rfl, rfl, rfl, rfl⟩

theorem SubscribeToPair_subscribed_iff (s : State) (client c1 : ClientId) (pair q : String) :
    subscribed (SubscribeToPair s client pair).1 c1 q ↔
      subscribed s c1 q ∨ (c1 = client ∧ q = pair ∧ chanOf s.subscribedPairs pair ≠ none) := by
  cases h : chanOf s.subscribedPairs pair with
  | none =>
    rw [SubscribeToPair_of_absent s client pair h]
    simp only [ne_eq, not_true_eq_false, and_false, or_false]
    exact subscribed_congr rfl _ _
  | some ch =>
    unfold SubscribeToPair
    rw [h]
    simp only [addSubscriber_subscribed_iff]
    by_cases hr : s.subscribedClients pair = none
    · simp only [hr, if_true, Function.update_same, ne_eq, reduceCtorEq, not_false_eq_true,
        and_true]
      unfold subscribed
      by_cases hq : q = pair
      · subst hq
        simp [hr]
      · simp [Function.update_noteq hq, hq]
    · simp [hr]

theorem removeClient_mem (client c1 : ClientId) (o : Option (List ClientId)) :
    (∃ m, removeClient client o = some m ∧ c1 ∈ m) ↔ (∃ m, o = some m ∧ c1 ∈ m) ∧ c1 ≠ client := by
  cases o with
  | none => simp [removeClient]
  | some m =>
    unfold removeClient
    by_cases hl : (m.filter (fun c => c ≠ client)).length = 0
    · simp only [hl, if_true, false_and, exists_false, Option.some.injEq, exists_eq_left',
        false_iff, not_and, reduceCtorEq]
      intro hc hne
      have : c1 ∈ m.filter (fun c => c ≠ client) := by simp [hc, hne]
      rw [List.length_eq_zero.1 hl] at this
      cases this
    · dsimp only
      rw [if_neg hl]
      constructor
      · rintro ⟨m1, hm1, hc⟩
        cases hm1
        have := List.mem_filter.1 hc
        exact ⟨⟨m, rfl, this.1⟩, by simpa using this.2⟩
      · rintro ⟨⟨m1, hm1, hc⟩, hne⟩
        cases hm1
        exact ⟨_, rfl, List.mem_filter.2 ⟨hc, by simpa using hne⟩⟩

theorem UnsubEffect.subscribed_iff {s t : State} {client : ClientId} {pair : String}
    (h : UnsubEffect s t client pair) (c1 : ClientId) (q : String) :
    subscribed t c1 q ↔ subscribed s c1 q ∧ ¬ (c1 = client ∧ q = pair) := by
  unfold subscribed
  rw [h.registry]
  by_cases hq : q = pair
  · subst hq
    rw [Function.update_same, removeClient_mem]
    simp
  · simp [Function.update_noteq hq, hq]

theorem UnsubEffect.mem_subs_iff {s t : State} {client : ClientId} {pair : String}
    (h : UnsubEffect s t client pair) (c1 : ClientId) (q : String) :
    q ∈ t.Subscriptions c1 ↔ q ∈ s.Subscriptions c1 ∧ ¬ (c1 = client ∧ q = pair) := by
  rw [h.subs]
  by_cases hc : c1 = client
  · subst hc
    simp
  · simp [Function.update_noteq hc, hc]

/-! ## The loops over `client.Subscriptions` -/

theorem deleteSubscription_of_not_mem (s : State) (client : ClientId) (pair : String)
    (h : pair ∉ s.Subscriptions client) : deleteSubscription s client pair = s := by
  unfold deleteSubscription
  have hf : (s.Subscriptions client).filter (fun p => p ≠ pair) = s.Subscriptions client := by
    rw [List.filter_eq_self]
    intro q hq
    have : q ≠ pair := fun e => h (e ▸ hq)
    simpa using this
  rw [hf, Function.update_eq_self]

theorem unsubscribeLoop_eq_deferLoop (client : ClientId) (rest : List String) (s : State) :
    unsubscribeLoop client rest s = deferLoop client rest s := by
  induction rest generalizing s with
  | nil => rfl
  | cons pair rest ih =>
    unfold unsubscribeLoop deferLoop
    by_cases hin : pair ∈ s.Subscriptions client
    · simp only [hin, if_true]
      have he := UnsubscribeFromPair_effect s client pair false
      cases ho : UnsubscribeFromPair s client pair false with
      | done s1 =>
        rw [ho] at he
        have hn : pair ∉ s1.Subscriptions client := fun hm => by
          have := (he.mem_subs_iff client pair).1 hm
          exact this.2 ⟨rfl, rfl⟩
        simp only
        rw [deleteSubscription_of_not_mem s1 client pair hn]
        exact ih s1
      | parked s1 ch => rfl
    · simp only [hin, if_false]
      exact ih s

/-- A property every `UnsubscribeFromPair` of `client` keeps is kept by the loop. -/
theorem deferLoop_keeps (P : State → Prop) (client : ClientId)
    (hP : ∀ s pair isAuto, P s → P (UnsubscribeFromPair s client pair isAuto).state)
    (rest : List String) (s : State) (h : P s) : P (deferLoop client rest s).state := by
  induction rest generalizing s with
  | nil => exact h
  | cons pair rest ih =>
    unfold deferLoop
    by_cases hin : pair ∈ s.Subscriptions client
    · simp only [hin, if_true]
      have h1 := hP s pair false h
      cases ho : UnsubscribeFromPair s client pair false with
      | done s1 =>
        rw [ho] at h1
        exact ih s1 h1
      | parked s1 ch =>
        rw [ho] at h1
        exact h1
    · simp only [hin, if_false]
      exact ih s h

/-- What the loop leaves in the maps when it runs to its end. -/
theorem deferLoop_done (client : ClientId) (rest : List String) (s t : State)
    (h : deferLoop client rest s = Outcome.done t) :
    (∀ c1 q, q ∈ t.Subscriptions c1 ↔ q ∈ s.Subscriptions c1 ∧ ¬ (c1 = client ∧ q ∈ rest)) ∧
    (∀ q, t.subscribedClients q =
      if q ∈ rest ∧ q ∈ s.Subscriptions client then removeClient client (s.subscribedClients q)
      else s.subscribedClients q) := by
  induction rest generalizing s with
  | nil =>
    simp only [deferLoop] at h
    cases h
    simp
  | cons pair rest ih =>
    unfold deferLoop at h
    by_cases hin : pair ∈ s.Subscriptions client
    · simp only [hin, if_true] at h
      have he := UnsubscribeFromPair_effect s client pair false
      cases ho : UnsubscribeFromPair s client pair false with
      | parked s1 ch => rw [ho] at h; cases h
      | done s1 =>
        rw [ho] at h he
        replace he : UnsubEffect s s1 client pair := he
        simp only at h
        obtain ⟨ih1, ih2⟩ := ih s1 h
        constructor
        · intro c1 q
          rw [ih1, he.mem_subs_iff, List.mem_cons]
          tauto
        · intro q
          rw [ih2 q, he.registry]
          by_cases hq : q = pair
          · subst hq
            have hn : q ∉ s1.Subscriptions client := fun hm =>
              ((he.mem_subs_iff client q).1 hm).2 ⟨rfl, rfl⟩
            simp [hn, hin]
          · have hiff : q ∈ s1.Subscriptions client ↔ q ∈ s.Subscriptions client := by
              rw [he.mem_subs_iff]
              tauto
            simp [Function.update_noteq hq, hq, hiff]
    · simp only [hin, if_false] at h
      obtain ⟨ih1, ih2⟩ := ih s h
      constructor
      · intro c1 q
        rw [ih1, List.mem_cons]
        constructor
        · rintro ⟨h1, h2⟩
          refine ⟨h1, ?_⟩
          rintro ⟨hc, hq | hq⟩
          · subst hc; subst hq; exact hin h1
          · exact h2 ⟨hc, hq⟩
        · rintro ⟨h1, h2⟩
          exact ⟨h1, fun ⟨hc, hq⟩ => h2 ⟨hc, Or.inr hq⟩⟩
      · intro q
        rw [ih2 q]
        by_cases hq : q = pair
        · subst hq
          simp [hin]
        · simp [hq]

/-! ## The `SUBSCRIBE` branch of `handleClient` -/

theorem subscribeLoop_cons (client : ClientId) (pair : String) (rest : List String) (s : State) :
    subscribeLoop client (pair :: rest) s = subscribeLoop client rest (subscribeBody client pair s) := by
  unfold subscribeBody
  rw [subscribeLoop]
  split <;> rfl

theorem subscribeBody_maps (client : ClientId) (pair : String) (s : State) :
    (subscribeBody client pair s).subscribedPairs = s.subscribedPairs ∧
    (subscribeBody client pair s).nextChan = s.nextChan ∧
    (subscribeBody client pair s).clientStatus = s.clientStatus ∧
    (subscribeBody client pair s).refresherParked = s.refresherParked := by
  unfold subscribeBody
  by_cases hin : pair ∈ s.Subscriptions client
  · simp only [hin, if_true]
    exact ⟨rfl, rfl, rfl, rfl⟩
  · simp only [hin, if_false]
    obtain ⟨h1, _, h3, h4, h5⟩ := SubscribeToPair_maps (deleteSubscription s client pair) client pair
    split <;> exact ⟨h1, h3, h4, h5⟩

theorem subscribeBody_mem_subs (client : ClientId) (pair : String) (s : State)
    (c1 : ClientId) (q : String) :
    q ∈ (subscribeBody client pair s).Subscriptions c1 ↔
      q ∈ s.Subscriptions c1 ∧ ¬ (c1 = client ∧ q = pair) := by
  have hd : q ∈ (deleteSubscription s client pair).Subscriptions c1 ↔
      q ∈ s.Subscriptions c1 ∧ ¬ (c1 = client ∧ q = pair) := by
    unfold deleteSubscription
    by_cases hc : c1 = client
    · subst hc; simp
    · simp [Function.update_noteq hc, hc]
  unfold subscribeBody
  by_cases hin : pair ∈ s.Subscriptions client
  · simp only [hin, if_true]
    exact hd
  · simp only [hin, if_false]
    have h2 := (SubscribeToPair_maps (deleteSubscription s client pair) client pair).2.1
    split
    · show q ∈ (SubscribeToPair (deleteSubscription s client pair) client pair).1.Subscriptions c1 ↔ _
      rw [h2]; exact hd
    · rw [h2]; exact hd

theorem subscribeBody_subscribed_iff (client : ClientId) (pair : String) (s : State)
    (c1 : ClientId) (q : String) :
    subscribed (subscribeBody client pair s) c1 q ↔
      subscribed s c1 q ∨ (c1 = client ∧ q = pair ∧ pair ∉ s.Subscriptions client ∧
        chanOf s.subscribedPairs pair ≠ none) := by
  unfold subscribeBody
  by_cases hin : pair ∈ s.Subscriptions client
  · simp only [hin, if_true, not_true_eq_false, false_and, and_false, or_false]
    exact subscribed_congr rfl _ _
  · simp only [hin, if_false, not_false_eq_true, true_and]
    have h := SubscribeToPair_subscribed_iff (deleteSubscription s client pair) client c1 pair q
    have hs : subscribed (deleteSubscription s client pair) c1 q ↔ subscribed s c1 q :=
      subscribed_congr rfl _ _
    rw [hs] at h
    split
    · exact (subscribed_congr (s := (SubscribeToPair (deleteSubscription s client pair) client
        pair).1) rfl _ _).trans h
    · exact h

theorem subscribeLoop_maps (client : ClientId) (pairs : List String) (s : State) :
    (subscribeLoop client pairs s).subscribedPairs = s.subscribedPairs ∧
    (subscribeLoop client pairs s).nextChan = s.nextChan ∧
    (subscribeLoop client pairs s).clientStatus = s.clientStatus ∧
    (subscribeLoop client pairs s).refresherParked = s.refresherParked := by
  induction pairs generalizing s with
  | nil => exact ⟨rfl, rfl, rfl, rfl⟩
  | cons pair rest ih =>
    rw [subscribeLoop_cons]
    obtain ⟨h1, h2, h3, h4⟩ := ih (subscribeBody client pair s)
    obtain ⟨g1, g2, g3, g4⟩ := subscribeBody_maps client pair s
    exact ⟨h1.trans g1, h2.trans g2, h3.trans g3, h4.trans g4⟩

theorem subscribeLoop_mem_subs (client : ClientId) (pairs : List String) (s : State)
    (c1 : ClientId) (q : String) :
    q ∈ (subscribeLoop client pairs s).Subscriptions c1 ↔
      q ∈ s.Subscriptions c1 ∧ ¬ (c1 = client ∧ q ∈ pairs) := by
  induction pairs generalizing s with
  | nil => simp [subscribeLoop]
  | cons pair rest ih =>
    rw [subscribeLoop_cons, ih, subscribeBody_mem_subs, List.mem_cons]
    tauto

theorem subscribeLoop_subscribed_mono (client : ClientId) (pairs : List String) (s : State)
    (c1 : ClientId) (q : String) (h : subscribed s c1 q) :
    subscribed (subscribeLoop client pairs s) c1 q := by
  induction pairs generalizing s with
  | nil => exact h
  | cons pair rest ih =>
    rw [subscribeLoop_cons]
    exact ih _ ((subscribeBody_subscribed_iff client pair s c1 q).2 (Or.inl h))

theorem subscribeLoop_subscribed_origin (client : ClientId) (pairs : List String) (s : State)
    (c1 : ClientId) (q : String) (h : subscribed (subscribeLoop client pairs s) c1 q) :
    subscribed s c1 q ∨ (c1 = client ∧ q ∈ pairs) := by
  induction pairs generalizing s with
  | nil => exact Or.inl h
  | cons pair rest ih =>
    rw [subscribeLoop_cons] at h
    rcases ih _ h with h1 | ⟨h1, h2⟩
    · rcases (subscribeBody_subscribed_iff client pair s c1 q).1 h1 with h3 | ⟨h3, h4, _⟩
      · exact Or.inl h3
      · exact Or.inr ⟨h3, h4 ▸ List.mem_cons_self _ _⟩
    · exact Or.inr ⟨h1, List.mem_cons_of_mem _ h2⟩

theorem subscribeLoop_subscribes (client : ClientId) (pairs : List String) (s : State)
    (p : String) (hp : p ∈ pairs) (hn : p ∉ s.Subscriptions client)
    (hv : chanOf s.subscribedPairs p ≠ none) :
    subscribed (subscribeLoop client pairs s) client p := by
  induction pairs generalizing s with
  | nil => cases hp
  | cons pair rest ih =>
    rw [subscribeLoop_cons]
    by_cases he : p = pair
    · subst he
      apply subscribeLoop_subscribed_mono
      exact (subscribeBody_subscribed_iff client p s client p).2 (Or.inr ⟨rfl, rfl, hn, hv⟩)
    · have hr : p ∈ rest := by
        cases hp with
        | head => exact absurd rfl he
        | tail _ h1 => exact h1
      apply ih _ hr
      · intro hm
        exact hn ((subscribeBody_mem_subs client pair s client p).1 hm).1
      · rw [(subscribeBody_maps client pair s).1]
        exact hv

theorem setSubscription_mem_subs (s : State) (client : ClientId) (pair : String)
    (c1 : ClientId) (q : String) :
    q ∈ (setSubscription s client pair).Subscriptions c1 ↔
      q ∈ s.Subscriptions c1 ∨ (c1 = client ∧ q = pair) := by
  unfold setSubscription
  by_cases hin : pair ∈ s.Subscriptions client
  · simp only [hin, if_true]
    constructor
    · exact fun h => Or.inl h
    · rintro (h | ⟨h1, h2⟩)
      · exact h
      · subst h1; subst h2; exact hin
  · simp only [hin, if_false]
    by_cases hc : c1 = client
    · subst hc; simp
    · simp [Function.update_noteq hc, hc]

theorem setSubscription_maps (s : State) (client : ClientId) (pair : String) :
    (setSubscription s client pair).subscribedClients = s.subscribedClients ∧
    (setSubscription s client pair).subscribedPairs = s.subscribedPairs ∧
    (setSubscription s client pair).clientStatus = s.clientStatus ∧
    (setSubscription s client pair).refresherParked = s.refresherParked ∧
    (setSubscription s client pair).feeds = s.feeds ∧
    (setSubscription s client pair).written = s.written ∧
    (setSubscription s client pair).nextChan = s.nextChan := by
  unfold setSubscription
  split <;> exact ⟨rfl, rfl, rfl, rfl, rfl, rfl, rfl⟩

theorem recordLoop_mem_subs (client : ClientId) (pairs : List String) (s : State)
    (c1 : ClientId) (q : String) :
    q ∈ (recordLoop client pairs s).Subscriptions c1 ↔
      q ∈ s.Subscriptions c1 ∨ (c1 = client ∧ q ∈ pairs) := by
  induction pairs generalizing s with
  | nil => simp [recordLoop]
  | cons pair rest ih =>
    rw [recordLoop, ih, setSubscription_mem_subs, List.mem_cons]
    tauto

theorem recordLoop_maps (client : ClientId) (pairs : List String) (s : State) :
    (recordLoop client pairs s).subscribedClients = s.subscribedClients ∧
    (recordLoop client pairs s).subscribedPairs = s.subscribedPairs ∧
    (recordLoop client pairs s).clientStatus = s.clientStatus ∧
    (recordLoop client pairs s).refresherParked = s.refresherParked ∧
    (recordLoop client pairs s).feeds = s.feeds ∧
    (recordLoop client pairs s).written = s.written ∧
    (recordLoop client pairs s).nextChan = s.nextChan := by
  induction pairs generalizing s with
  | nil => exact ⟨rfl, rfl, rfl, rfl, rfl, rfl, rfl⟩
  | cons pair rest ih =>
    rw [recordLoop]
    obtain ⟨h1, h2, h3, h4, h5, h6, h7⟩ := ih (setSubscription s client pair)
    obtain ⟨g1, g2, g3, g4, g5, g6, g7⟩ := setSubscription_maps s client pair
    exact ⟨h1.trans g1, h2.trans g2, h3.trans g3, h4.trans g4, h5.trans g5, h6.trans g6,
      h7.trans g7⟩

theorem handleClient_subscribe (s : State) (client : ClientId) (pairs : List String) :
    handleClient s client (subscribeRequest pairs) =
      match deferLoop client ((subscribeLoop client pairs s).Subscriptions client)
          (subscribeLoop client pairs s) with
      | Outcome.done s2 => Outcome.done (recordLoop client pairs s2)
      | Outcome.parked s2 ch => Outcome.parked s2 ch := by
  unfold handleClient subscribeRequest
  simp only [if_true]
  rw [unsubscribeLoop_eq_deferLoop]

theorem handleClient_of_subset (s : State) (client : ClientId) (pairs : List String)
    (h : ∀ q ∈ s.Subscriptions client, q ∈ pairs) :
    handleClient s client (subscribeRequest pairs) =
      Outcome.done (recordLoop client pairs (subscribeLoop client pairs s)) := by
  have hnil : (subscribeLoop client pairs s).Subscriptions client = [] := by
    rw [List.eq_nil_iff_forall_not_mem]
    intro q hq
    have := (subscribeLoop_mem_subs client pairs s client q).1 hq
    exact this.2 ⟨rfl, h q this.1⟩
  rw [handleClient_subscribe, hnil]
  rfl

theorem handleClient_done_mem_subs (s t : State) (client : ClientId) (pairs : List String)
    (h : handleClient s client (subscribeRequest pairs) = Outcome.done t) (p : String) :
    p ∈ t.Subscriptions client ↔ p ∈ pairs := by
  rw [handleClient_subscribe] at h
  cases ho : deferLoop client ((subscribeLoop client pairs s).Subscriptions client)
      (subscribeLoop client pairs s) with
  | parked s2 ch => rw [ho] at h; cases h
  | done s2 =>
    rw [ho] at h
    cases h
    rw [recordLoop_mem_subs, (deferLoop_done client _ _ s2 ho).1]
    constructor
    · rintro (⟨h1, h2⟩ | ⟨_, h1⟩)
      · exact absurd ⟨rfl, h1⟩ h2
      · exact h1
    · exact fun h1 => Or.inr ⟨rfl, h1⟩

/-- What a `SUBSCRIBE` request that is processed to its end leaves in
`client.Subscriptions`: exactly the instruments named in `pairs`.  The request
is processed to its end when every instrument held before is named again
(nothing is unsubscribed, so no channel send is executed); nothing is said
here about a request whose second loop blocks on a send. -/
theorem handleClient_replaces_subscriptions (s : State) (client : ClientId)
    (pairs : List String) :
    (∀ t, handleClient s client (subscribeRequest pairs) = Outcome.done t →
      ∀ p, p ∈ t.Subscriptions client ↔ p ∈ pairs) ∧
    ((∀ q ∈ s.Subscriptions client, q ∈ pairs) →
      (handleClient s client (subscribeRequest pairs)).completed = true) := by
  constructor
  · intro t h p
    exact handleClient_done_mem_subs s t client pairs h p
  · intro h
    rw [handleClient_of_subset s client pairs h]
    rfl

/-- C1 as amended. A client without subscriptions that sends the same non-empty
list of eligible instruments twice has both requests processed to the end,
and afterwards its `Subscriptions` hold exactly the instruments of the list
and it is a member of `subscribedClients[p]` for each of them. -/
theorem resubscribe_keeps_subscriptions (s : State) (client : ClientId) (pairs : List String)
    (h0 : s.Subscriptions client = []) (hne : pairs ≠ [])
    (hU : ∀ p ∈ pairs, p ∈ pairKeys s.subscribedPairs) :
    ∃ s1 s2, handleClient s client (subscribeRequest pairs) = Outcome.done s1 ∧
      handleClient s1 client (subscribeRequest pairs) = Outcome.done s2 ∧
      (∀ p, p ∈ s2.Subscriptions client ↔ p ∈ pairs) ∧
      (∀ p ∈ pairs, subscribed s2 client p) ∧
      s2.Subscriptions client ≠ [] := by
  have h1 := handleClient_of_subset s client pairs (by rw [h0]; intro q hq; cases hq)
  have hs1 : ∀ q ∈ (recordLoop client pairs (subscribeLoop client pairs s)).Subscriptions client,
      q ∈ pairs := by
    intro q hq
    rcases (recordLoop_mem_subs client pairs _ client q).1 hq with hq1 | ⟨_, hq1⟩
    · have := ((subscribeLoop_mem_subs client pairs s client q).1 hq1).1
      rw [h0] at this
      cases this
    · exact hq1
  have h2 := handleClient_of_subset _ client pairs hs1
  refine ⟨_, _, h1, h2, ?_, ?_, ?_⟩
  · exact fun p => handleClient_done_mem_subs _ _ client pairs h2 p
  · intro p hp
    apply (subscribed_congr (recordLoop_maps client pairs _).1 client p).2
    apply subscribeLoop_subscribed_mono
    apply (subscribed_congr (recordLoop_maps client pairs _).1 client p).2
    apply subscribeLoop_subscribes client pairs s p hp
    · rw [h0]; exact List.not_mem_nil p
    · exact (mem_pairKeys_iff _ _).1 (hU p hp)
  · intro hnil
    cases pairs with
    | nil => exact hne rfl
    | cons p rest =>
      have := (handleClient_done_mem_subs _ _ client (p :: rest) h2 p).2
        (List.mem_cons_self _ _)
      rw [hnil] at this
      cases this

/-! ## An invariant of the modelled steps -/

theorem UnsubEffect.agrees {s t : State} {client : ClientId} {pair : String}
    (h : UnsubEffect s t client pair) (c1 : ClientId) (ha : Agrees s c1) : Agrees t c1 := by
  intro q hq
  have h1 := (h.subscribed_iff c1 q).1 hq
  exact (h.mem_subs_iff c1 q).2 ⟨ha q h1.1, h1.2⟩

theorem Agrees.congr {s t : State} (hr : t.subscribedClients = s.subscribedClients)
    (hs : t.Subscriptions = s.Subscriptions) (c1 : ClientId) (ha : Agrees s c1) : Agrees t c1 := by
  intro q hq
  rw [hs]
  exact ha q ((subscribed_congr hr c1 q).1 hq)

/-- A property every `UnsubscribeFromPair` for `symbol` keeps is kept by the loop of `ClosePair`. -/
theorem closeLoop_keeps (P : State → Prop) (symbol : String)
    (hP : ∀ s client isAuto, P s → P (UnsubscribeFromPair s client symbol isAuto).state)
    (clients : List ClientId) (s : State) (h : P s) : P (closeLoop symbol clients s).state := by
  induction clients generalizing s with
  | nil => exact h
  | cons client rest ih =>
    unfold closeLoop
    have h1 := hP s client true h
    cases ho : UnsubscribeFromPair s client symbol true with
    | done s1 =>
      rw [ho] at h1
      exact ih s1 h1
    | parked s1 ch =>
      rw [ho] at h1
      exact h1

theorem ClosePair_keeps (P : State → Prop) (symbol : String)
    (hP : ∀ s client isAuto, P s → P (UnsubscribeFromPair s client symbol isAuto).state)
    (hD : ∀ s, P s → P (deleteRegistryKey s symbol))
    (s : State) (h : P s) : P (ClosePair s symbol).state := by
  unfold ClosePair
  have h1 := closeLoop_keeps P symbol hP ((s.subscribedClients symbol).getD []) s h
  cases ho : closeLoop symbol ((s.subscribedClients symbol).getD []) s with
  | done s1 =>
    rw [ho] at h1
    exact hD s1 h1
  | parked s1 ch =>
    rw [ho] at h1
    exact h1

theorem deleteRegistryKey_agrees (s : State) (symbol : String) (c1 : ClientId)
    (ha : Agrees s c1) : Agrees (deleteRegistryKey s symbol) c1 := by
  intro q hq
  apply ha q
  obtain ⟨m, hm, hc⟩ := hq
  unfold deleteRegistryKey at hm
  by_cases hq1 : q = symbol
  · subst hq1
    simp at hm
  · simp only [Function.update_noteq hq1] at hm
    exact ⟨m, hm, hc⟩

theorem ClosePair_agrees (s : State) (symbol : String) (c1 : ClientId) (ha : Agrees s c1) :
    Agrees (ClosePair s symbol).state c1 :=
  ClosePair_keeps (fun t => Agrees t c1) symbol
    (fun t client isAuto h => (UnsubscribeFromPair_effect t client symbol isAuto).agrees c1 h)
    (fun t h => deleteRegistryKey_agrees t symbol c1 h) s ha

theorem ClosePair_status (s : State) (symbol : String) :
    (ClosePair s symbol).state.clientStatus = s.clientStatus :=
  ClosePair_keeps (fun t => t.clientStatus = s.clientStatus) symbol
    (fun t client isAuto h => (UnsubscribeFromPair_effect t client symbol isAuto).status.trans h)
    (fun _ h => h) s rfl

theorem deferLoop_agrees (client : ClientId) (rest : List String) (s : State) (c1 : ClientId)
    (ha : Agrees s c1) : Agrees (deferLoop client rest s).state c1 :=
  deferLoop_keeps (fun t => Agrees t c1) client
    (fun t pair isAuto h => (UnsubscribeFromPair_effect t client pair isAuto).agrees c1 h) rest s ha

theorem deferLoop_status (client : ClientId) (rest : List String) (s : State) :
    (deferLoop client rest s).state.clientStatus = s.clientStatus :=
  deferLoop_keeps (fun t => t.clientStatus = s.clientStatus) client
    (fun t pair isAuto h => (UnsubscribeFromPair_effect t client pair isAuto).status.trans h)
    rest s rfl

theorem addLoop_clients (top150 : List String) (s : State) :
    (addLoop top150 s).subscribedClients = s.subscribedClients ∧
    (addLoop top150 s).Subscriptions = s.Subscriptions ∧
    (addLoop top150 s).clientStatus = s.clientStatus := by
  induction top150 generalizing s with
  | nil => exact ⟨rfl, rfl, rfl⟩
  | cons symbol rest ih =>
    unfold addLoop
    split
    · exact ih _
    · exact ih s

theorem evictLoop_clients (top150 rest : List String) (s : State) :
    (evictLoop top150 rest s).state.subscribedClients = s.subscribedClients ∧
    (evictLoop top150 rest s).state.Subscriptions = s.Subscriptions ∧
    (evictLoop top150 rest s).state.clientStatus = s.clientStatus := by
  induction rest generalizing s with
  | nil => exact ⟨rfl, rfl, rfl⟩
  | cons symbol rest ih =>
    unfold evictLoop
    split
    · split
      · cases hs : send s (chanOf s.subscribedPairs symbol) with
        | none => exact ⟨rfl, rfl, rfl⟩
        | some s1 =>
          have hm := SameMaps.of_send hs
          obtain ⟨h1, h2, h3⟩ := ih { s1 with subscribedPairs := deletePair s1.subscribedPairs symbol }
          exact ⟨h1.trans hm.registry, h2.trans hm.subs, h3.trans hm.status⟩
      · exact ih s
    · exact ih s

theorem updateTop150_clients (s : State) (top150 : List String) :
    (updateTop150 s top150).state.subscribedClients = s.subscribedClients ∧
    (updateTop150 s top150).state.Subscriptions = s.Subscriptions ∧
    (updateTop150 s top150).state.clientStatus = s.clientStatus := by
  unfold updateTop150
  obtain ⟨h1, h2, h3⟩ := evictLoop_clients top150
    (pairKeys (addLoop top150 s).subscribedPairs) (addLoop top150 s)
  obtain ⟨g1, g2, g3⟩ := addLoop_clients top150 s
  exact ⟨h1.trans g1, h2.trans g2, h3.trans g3⟩

theorem handleClient_cases (s : State) (client : ClientId) (clientMessage : ClientMessage) :
    handleClient s client clientMessage = Outcome.done s ∨
    handleClient s client clientMessage =
      handleClient s client (subscribeRequest clientMessage.Pairs) := by
  by_cases hm : clientMessage.Method = "SUBSCRIBE"
  · right
    unfold handleClient subscribeRequest
    simp only [hm, if_true]
  · left
    unfold handleClient
    simp only [hm, if_false]

theorem handleClient_status (s : State) (client : ClientId) (clientMessage : ClientMessage) :
    (handleClient s client clientMessage).state.clientStatus = s.clientStatus := by
  rcases handleClient_cases s client clientMessage with h | h
  · rw [h]; rfl
  · rw [h, handleClient_subscribe]
    have h1 := deferLoop_status client
      ((subscribeLoop client clientMessage.Pairs s).Subscriptions client)
      (subscribeLoop client clientMessage.Pairs s)
    have h2 := (subscribeLoop_maps client clientMessage.Pairs s).2.2.1
    cases ho : deferLoop client ((subscribeLoop client clientMessage.Pairs s).Subscriptions client)
        (subscribeLoop client clientMessage.Pairs s) with
    | done s2 =>
      rw [ho] at h1
      exact ((recordLoop_maps client clientMessage.Pairs s2).2.2.1.trans h1).trans h2
    | parked s2 ch =>
      rw [ho] at h1
      exact h1.trans h2

theorem handleClient_agrees_other (s : State) (client : ClientId) (clientMessage : ClientMessage)
    (c1 : ClientId) (hne : c1 ≠ client) (ha : Agrees s c1) :
    Agrees (handleClient s client clientMessage).state c1 := by
  rcases handleClient_cases s client clientMessage with h | h
  · rw [h]; exact ha
  · rw [h, handleClient_subscribe]
    have ha1 : Agrees (subscribeLoop client clientMessage.Pairs s) c1 := by
      intro q hq
      rcases subscribeLoop_subscribed_origin client _ s c1 q hq with h1 | ⟨h1, _⟩
      · exact (subscribeLoop_mem_subs client _ s c1 q).2 ⟨ha q h1, fun hc => hne hc.1⟩
      · exact absurd h1 hne
    have h1 := deferLoop_agrees client
      ((subscribeLoop client clientMessage.Pairs s).Subscriptions client)
      (subscribeLoop client clientMessage.Pairs s) c1 ha1
    cases ho : deferLoop client ((subscribeLoop client clientMessage.Pairs s).Subscriptions client)
        (subscribeLoop client clientMessage.Pairs s) with
    | done s2 =>
      rw [ho] at h1
      intro q hq
      have hq1 : subscribed s2 c1 q :=
        (subscribed_congr (recordLoop_maps client clientMessage.Pairs s2).1 c1 q).1 hq
      exact (recordLoop_mem_subs client _ s2 c1 q).2 (Or.inl (h1 q hq1))
    | parked s2 ch =>
      rw [ho] at h1
      exact h1

theorem handleClient_agrees_self (s t : State) (client : ClientId)
    (clientMessage : ClientMessage)
    (h : handleClient s client clientMessage = Outcome.done t) (ha : Agrees s client) :
    Agrees t client := by
  rcases handleClient_cases s client clientMessage with h1 | h1
  · rw [h1] at h
    cases h
    exact ha
  · rw [h1, handleClient_subscribe] at h
    cases ho : deferLoop client ((subscribeLoop client clientMessage.Pairs s).Subscriptions client)
        (subscribeLoop client clientMessage.Pairs s) with
    | parked s2 ch => rw [ho] at h; cases h
    | done s2 =>
      rw [ho] at h
      cases h
      intro q hq
      have hq2 : subscribed s2 client q :=
        (subscribed_congr (recordLoop_maps client clientMessage.Pairs s2).1 client q).1 hq
      rw [recordLoop_mem_subs]
      by_cases hp : q ∈ clientMessage.Pairs
      · exact Or.inr ⟨rfl, hp⟩
      · exfalso
        obtain ⟨m, hm, hc⟩ := hq2
        rw [(deferLoop_done client _ _ s2 ho).2 q] at hm
        by_cases hq1 : q ∈ (subscribeLoop client clientMessage.Pairs s).Subscriptions client
        · simp only [hq1, and_self, if_true] at hm
          exact ((removeClient_mem client client _).1 ⟨m, hm, hc⟩).2 rfl
        · simp only [hq1, and_false, if_false] at hm
          rcases subscribeLoop_subscribed_origin client _ s client q ⟨m, hm, hc⟩ with h2 | ⟨_, h2⟩
          · exact hq1 ((subscribeLoop_mem_subs client _ s client q).2
              ⟨ha q h2, fun hc1 => hp hc1.2⟩)
          · exact hp h2

theorem inv_init : Inv init := by
  intro client _ q hq
  obtain ⟨m, hm, _⟩ := hq
  cases hm

theorem inv_step (s : State) (a : Action) (h : Inv s) : Inv (step s a) := by
  cases a with
  | request client clientMessage =>
    unfold step
    by_cases hs : s.clientStatus client = ClientStatus.reading
    · simp only [hs, if_true]
      have hst := handleClient_status s client clientMessage
      cases ho : handleClient s client clientMessage with
      | done t =>
        rw [ho] at hst
        intro c1 hc1
        have hc1s : s.clientStatus c1 = ClientStatus.reading := by
          rw [← hc1]; exact (congrFun hst c1).symm
        by_cases hne : c1 = client
        · subst hne
          exact handleClient_agrees_self s t c1 clientMessage ho (h c1 hc1s)
        · have := handleClient_agrees_other s client clientMessage c1 hne (h c1 hc1s)
          rw [ho] at this
          exact this
      | parked t ch =>
        rw [ho] at hst
        intro c1 hc1
        by_cases hne : c1 = client
        · subst hne
          simp at hc1
        · simp only [Function.update_noteq hne] at hc1
          have hc1s : s.clientStatus c1 = ClientStatus.reading := by
            rw [← hc1]; exact (congrFun hst c1).symm
          have := handleClient_agrees_other s client clientMessage c1 hne (h c1 hc1s)
          rw [ho] at this
          exact Agrees.congr rfl rfl c1 this
    · simp only [hs, if_false]
      exact h
  | disconnect client =>
    unfold step
    by_cases hs : s.clientStatus client = ClientStatus.reading
    · simp only [hs, if_true]
      have hst := deferLoop_status client (s.Subscriptions client) s
      have hag := fun c1 => deferLoop_agrees client (s.Subscriptions client) s c1
      unfold handleClientDeferred
      cases ho : deferLoop client (s.Subscriptions client) s with
      | done t =>
        rw [ho] at hst hag
        intro c1 hc1
        by_cases hne : c1 = client
        · subst hne
          simp at hc1
        · simp only [Function.update_noteq hne] at hc1
          have hc1s : s.clientStatus c1 = ClientStatus.reading := by
            rw [← hc1]; exact (congrFun hst c1).symm
          exact Agrees.congr rfl rfl c1 (hag c1 (h c1 hc1s))
      | parked t ch =>
        rw [ho] at hst hag
        intro c1 hc1
        by_cases hne : c1 = client
        · subst hne
          simp at hc1
        · simp only [Function.update_noteq hne] at hc1
          have hc1s : s.clientStatus c1 = ClientStatus.reading := by
            rw [← hc1]; exact (congrFun hst c1).symm
          exact Agrees.congr rfl rfl c1 (hag c1 (h c1 hc1s))
    · simp only [hs, if_false]
      exact h
  | refresh top150 =>
    unfold step
    by_cases hs : s.refresherParked = false
    · simp only [hs, if_true]
      obtain ⟨h1, h2, h3⟩ := updateTop150_clients s top150
      cases ho : updateTop150 s top150 with
      | done t =>
        rw [ho] at h1 h2 h3
        intro c1 hc1
        have hc1s : s.clientStatus c1 = ClientStatus.reading := by
          rw [← hc1]; exact (congrFun h3 c1).symm
        exact Agrees.congr h1 h2 c1 (h c1 hc1s)
      | parked t ch =>
        rw [ho] at h1 h2 h3
        intro c1 hc1
        have hc1s : s.clientStatus c1 = ClientStatus.reading := by
          rw [← hc1]; exact (congrFun h3 c1).symm
        exact Agrees.congr h1 h2 c1 (h c1 hc1s)
    · simp only [hs, if_false]
      exact h
  | feedQuit i =>
    unfold step
    dsimp only
    cases hf : s.feeds.get? i with
    | none => exact h
    | some f =>
      dsimp only
      by_cases hc : f.status = FeedStatus.closing
      · simp only [hc, if_true]
        have hst := ClosePair_status s f.symbol
        have hag := fun c1 => ClosePair_agrees s f.symbol c1
        cases ho : ClosePair s f.symbol with
        | done t =>
          rw [ho] at hst hag
          intro c1 hc1
          have hc1s : s.clientStatus c1 = ClientStatus.reading := by
            rw [← hc1]; exact (congrFun hst c1).symm
          exact Agrees.congr rfl rfl c1 (hag c1 (h c1 hc1s))
        | parked t ch =>
          rw [ho] at hst hag
          intro c1 hc1
          have hc1s : s.clientStatus c1 = ClientStatus.reading := by
            rw [← hc1]; exact (congrFun hst c1).symm
          exact Agrees.congr rfl rfl c1 (hag c1 (h c1 hc1s))
      · simp only [hc, if_false]
        exact h

theorem inv_run (s : State) (as : List Action) (h : Inv s) : Inv (run s as) := by
  induction as generalizing s with
  | nil => exact h
  | cons a rest ih => exact ih (step s a) (inv_step s a h)

/-! ## Disconnect -/

/-- What a run of the deferred function that returns leaves behind, for a
client whose registry memberships are all keys of its `Subscriptions`: the
client is in no subscriber set, its `Subscriptions` are empty and an
instrument whose only subscriber it was has no registry key.  Nothing is said
here about a run that blocks on a send. -/
theorem deferred_done_cleanup (s t : State) (client : ClientId) (ha : Agrees s client)
    (h : handleClientDeferred s client = Outcome.done t) :
    (∀ p, ¬ subscribed t client p) ∧ t.Subscriptions client = [] ∧
    (∀ p m, s.subscribedClients p = some m → client ∈ m → (∀ c ∈ m, c = client) →
      t.subscribedClients p = none) := by
  unfold handleClientDeferred at h
  obtain ⟨h1, h2⟩ := deferLoop_done client _ s t h
  refine ⟨fun p hp => ?_, ?_, fun p m hm hc hsole => ?_⟩
  · obtain ⟨m, hm, hc⟩ := hp
    rw [h2 p] at hm
    by_cases hin : p ∈ s.Subscriptions client
    · simp only [hin, and_self, if_true] at hm
      exact ((removeClient_mem client client _).1 ⟨m, hm, hc⟩).2 rfl
    · simp only [hin, and_self, if_false] at hm
      exact hin (ha p ⟨m, hm, hc⟩)
  · rw [List.eq_nil_iff_forall_not_mem]
    intro q hq
    have := (h1 client q).1 hq
    exact this.2 ⟨rfl, this.1⟩
  · have hin : p ∈ s.Subscriptions client := ha p ⟨m, hm, hc⟩
    rw [h2 p]
    simp only [hin, and_self, if_true]
    rw [hm]
    have hf : m.filter (fun c => c ≠ client) = [] := by
      rw [List.filter_eq_nil_iff]
      intro c hcm
      simp [hsole c hcm]
    show (if (m.filter (fun c => c ≠ client)).length = 0 then none
      else some (m.filter (fun c => c ≠ client))) = none
    rw [hf]
    rfl

/-! ## The claims at concrete inputs -/

/-- A call of `updateTop150` that runs to its end: `ETHUSDT`, whose feed is running,
leaves and `SOLUSDT` enters. -/
theorem updateTop150_reconciles_witness :
    updateTop150 oneSubscriber ["BTCUSDT", "SOLUSDT"] =
      Outcome.done (updateTop150 oneSubscriber ["BTCUSDT", "SOLUSDT"]).state ∧
    (updateTop150 oneSubscriber ["BTCUSDT", "SOLUSDT"]).state.subscribedPairs =
      [("BTCUSDT", 0), ("SOLUSDT", 2)] ∧
    ((∀ p, p ∈ pairKeys (updateTop150 oneSubscriber ["BTCUSDT", "SOLUSDT"]).state.subscribedPairs ↔
        p ∈ ["BTCUSDT", "SOLUSDT"]) ∧
      (∀ p ch, p ∈ ["BTCUSDT", "SOLUSDT"] → chanOf oneSubscriber.subscribedPairs p = some ch →
        chanOf (updateTop150 oneSubscriber ["BTCUSDT", "SOLUSDT"]).state.subscribedPairs p =
          some ch) ∧
      (∀ p, p ∈ ["BTCUSDT", "SOLUSDT"] → p ∉ pairKeys oneSubscriber.subscribedPairs →
        ∃ ch, chanOf (updateTop150 oneSubscriber ["BTCUSDT", "SOLUSDT"]).state.subscribedPairs p =
            some ch ∧
          oneSubscriber.nextChan ≤ ch ∧
          ch < (updateTop150 oneSubscriber ["BTCUSDT", "SOLUSDT"]).state.nextChan ∧
          ∀ q, q ∉ pairKeys oneSubscriber.subscribedPairs →
            chanOf (updateTop150 oneSubscriber ["BTCUSDT", "SOLUSDT"]).state.subscribedPairs q =
              some ch → q = p) ∧
      (∀ p, p ∈ pairKeys oneSubscriber.subscribedPairs → p ∉ ["BTCUSDT", "SOLUSDT"] →
        p ∉ pairKeys (updateTop150 oneSubscriber ["BTCUSDT", "SOLUSDT"]).state.subscribedPairs ∧
        chanOf (updateTop150 oneSubscriber ["BTCUSDT", "SOLUSDT"]).state.subscribedPairs p =
          none)) :=
  ⟨rfl, by decide, updateTop150_reconciles oneSubscriber _ ["BTCUSDT", "SOLUSDT"] rfl⟩

/-- A request that is processed to its end: client 0 holds `ETHUSDT` and asks for
`ETHUSDT`, `XRPUSDT` (not in the universe) and `BTCUSDT` twice. -/
theorem handleClient_replaces_subscriptions_witness :
    (handleClient oneSubscriber 0
      (subscribeRequest ["ETHUSDT", "XRPUSDT", "BTCUSDT", "BTCUSDT"])).completed = true ∧
    (handleClient oneSubscriber 0
      (subscribeRequest ["ETHUSDT", "XRPUSDT", "BTCUSDT", "BTCUSDT"])).state.Subscriptions 0 =
        ["ETHUSDT", "XRPUSDT", "BTCUSDT"] ∧
    ∀ p, p ∈ (handleClient oneSubscriber 0
      (subscribeRequest ["ETHUSDT", "XRPUSDT", "BTCUSDT", "BTCUSDT"])).state.Subscriptions 0 ↔
        p ∈ ["ETHUSDT", "XRPUSDT", "BTCUSDT", "BTCUSDT"] :=
  ⟨(handleClient_replaces_subscriptions oneSubscriber 0
      ["ETHUSDT", "XRPUSDT", "BTCUSDT", "BTCUSDT"]).2 (by decide),
   by decide,
   (handleClient_replaces_subscriptions oneSubscriber 0
      ["ETHUSDT", "XRPUSDT", "BTCUSDT", "BTCUSDT"]).1 _ rfl⟩

/-- C1 as stated fails: in the universe `BTCUSDT`, `ETHUSDT`, client 0 starts
without subscriptions and sends `SUBSCRIBE [BTCUSDT]` twice; both requests are
processed to the end, and afterwards its `Subscriptions` are `BTCUSDT`, not
empty, and it is still the subscriber of `BTCUSDT` in the registry. -/
theorem toggle_twice_counterexample :
    universe2.Subscriptions 0 = [] ∧
    "BTCUSDT" ∈ pairKeys universe2.subscribedPairs ∧
    (handleClient universe2 0 (subscribeRequest ["BTCUSDT"])).completed = true ∧
    (handleClient (handleClient universe2 0 (subscribeRequest ["BTCUSDT"])).state 0
      (subscribeRequest ["BTCUSDT"])).completed = true ∧
    ¬ ((handleClient (handleClient universe2 0 (subscribeRequest ["BTCUSDT"])).state 0
        (subscribeRequest ["BTCUSDT"])).state.Subscriptions 0 = [] ∧
      ∀ p, ¬ subscribed (handleClient (handleClient universe2 0
        (subscribeRequest ["BTCUSDT"])).state 0 (subscribeRequest ["BTCUSDT"])).state 0 p) ∧
    (handleClient (handleClient universe2 0 (subscribeRequest ["BTCUSDT"])).state 0
      (subscribeRequest ["BTCUSDT"])).state.Subscriptions 0 = ["BTCUSDT"] ∧
    (handleClient (handleClient universe2 0 (subscribeRequest ["BTCUSDT"])).state 0
      (subscribeRequest ["BTCUSDT"])).state.subscribedClients "BTCUSDT" = some [0] :=
  ⟨by decide, by decide, by decide, by decide, fun h => absurd h.1 (by decide), by decide,
    by decide⟩

/-- C1 as amended, at the input of the counterexample. -/
theorem resubscribe_keeps_subscriptions_witness :
    universe2.Subscriptions 0 = [] ∧
    ∃ s1 s2, handleClient universe2 0 (subscribeRequest ["BTCUSDT"]) = Outcome.done s1 ∧
      handleClient s1 0 (subscribeRequest ["BTCUSDT"]) = Outcome.done s2 ∧
      (∀ p, p ∈ s2.Subscriptions 0 ↔ p ∈ ["BTCUSDT"]) ∧
      (∀ p ∈ ["BTCUSDT"], subscribed s2 0 p) ∧
      s2.Subscriptions 0 ≠ [] :=
  ⟨by decide, resubscribe_keeps_subscriptions universe2 0 ["BTCUSDT"] (by decide) (by decide)
    (by decide)⟩

/-- C2 on the code: the feed of `BTCUSDT` reads the same ticker payload twice
in a row and issues two broadcasts, where dedup as the specification words it
issues one; the local `LastMessage` stays the zero value. -/
theorem dedup_two_identical_payloads :
    SubscribeToBinanceWebSocket "BTCUSDT" [Frame.ticker tick, Frame.ticker tick] =
      [("BTCUSDT", tick), ("BTCUSDT", tick)] ∧
    specReceiveLoop "BTCUSDT" { Symbol := "", BestBid := "", BestAsk := "" }
      [Frame.ticker tick, Frame.ticker tick] = [("BTCUSDT", tick)] := by
  decide

/-- C3 on the code: two feeds of `ETHUSDT` that were started and have not
returned.  In `evictedAndBack` the first is blocked for ever inside `ClosePair`
on a send on the nil channel; in `resubscribedEarly` the first has received
from `quit` and not yet run `ClosePair`. -/
theorem two_live_feeds_for_one_instrument :
    liveFeeds evictedAndBack "ETHUSDT" = 2 ∧
    evictedAndBack.feeds =
      [{ symbol := "ETHUSDT", quit := 1, status := FeedStatus.parked },
       { symbol := "ETHUSDT", quit := 2, status := FeedStatus.running }] ∧
    liveFeeds resubscribedEarly "ETHUSDT" = 2 ∧
    resubscribedEarly.feeds =
      [{ symbol := "ETHUSDT", quit := 1, status := FeedStatus.closing },
       { symbol := "BTCUSDT", quit := 0, status := FeedStatus.running },
       { symbol := "ETHUSDT", quit := 1, status := FeedStatus.running }] := by
  decide

/-- C4 on the code: after `SUBSCRIBE [XRPUSDT]` for an instrument that is not
in the universe, client 0 is still reading, `XRPUSDT` is a key of its
`Subscriptions`, and the registry has no entry for `XRPUSDT`. -/
theorem rejected_pair_is_recorded :
    rejected.clientStatus 0 = ClientStatus.reading ∧
    rejected.Subscriptions 0 = ["XRPUSDT"] ∧
    rejected.subscribedClients "XRPUSDT" = none ∧
    ¬ subscribed rejected 0 "XRPUSDT" ∧
    rejected.written = [(0, "Invalid pair: XRPUSDT"), (0, "Invalid pair: XRPUSDT")] := by
  decide

/-- C6 on the code: clients 1 and 2 hold `ETHUSDT`, a tick drops it and its
feed runs `ClosePair`.  Client 1 is sent the notice once, client 2 is sent
none, and the feed is blocked on a send on the nil channel instead of
returning; the registry key, the universe key and both clients' subscriptions
are gone. -/
theorem eviction_last_subscriber_not_notified :
    twoSubscribers.subscribedClients "ETHUSDT" = some [1, 2] ∧
    evicted.feeds = [{ symbol := "ETHUSDT", quit := 1, status := FeedStatus.closing }] ∧
    (ClosePair evicted "ETHUSDT").blockedOn = some none ∧
    writtenCount (step evicted (Action.feedQuit 0)) 1
      "Unsubscribed from ETHUSDT since pair is no longer in top 150" = 1 ∧
    writtenCount (step evicted (Action.feedQuit 0)) 2
      "Unsubscribed from ETHUSDT since pair is no longer in top 150" = 0 ∧
    (step evicted (Action.feedQuit 0)).feeds =
      [{ symbol := "ETHUSDT", quit := 1, status := FeedStatus.parked }] ∧
    liveFeeds (step evicted (Action.feedQuit 0)) "ETHUSDT" = 1 ∧
    (step evicted (Action.feedQuit 0)).subscribedClients "ETHUSDT" = none ∧
    chanOf (step evicted (Action.feedQuit 0)).subscribedPairs "ETHUSDT" = none ∧
    (step evicted (Action.feedQuit 0)).Subscriptions 1 = [] ∧
    (step evicted (Action.feedQuit 0)).Subscriptions 2 = [] := by
  decide

/-- C7 on the code: `updateTop150` dropping `ETHUSDT`, which has no subscriber
and no feed, executes the send on its channel and blocks there with the
instrument still in the universe; the deferred function of a client whose
`Subscriptions` hold `XRPUSDT`, which has no registry entry, executes the send
on the nil channel. -/
theorem cancellation_sent_without_feed :
    universe2.feeds = [] ∧
    universe2.subscribedClients "ETHUSDT" = none ∧
    (updateTop150 universe2 ["BTCUSDT"]).blockedOn = some (some 1) ∧
    (updateTop150 universe2 ["BTCUSDT"]).state.subscribedPairs =
      [("BTCUSDT", 0), ("ETHUSDT", 1)] ∧
    (step universe2 (Action.refresh ["BTCUSDT"])).refresherParked = true ∧
    rejected.subscribedClients "XRPUSDT" = none ∧
    rejected.feeds = [] ∧
    (UnsubscribeFromPair rejected 0 "XRPUSDT" false).blockedOn = some none ∧
    (handleClientDeferred rejected 0).blockedOn = some none := by
  decide

/-- C8 on the code: in the universe `BTCUSDT`, `ETHUSDT` without any subscriber,
the tick `BTCUSDT`, `SOLUSDT` adds `SOLUSDT` and then blocks on the send for
`ETHUSDT`, which no feed receives: `updateTop150` does not run to its end,
`ETHUSDT` stays a key, the keys are not the new set, and no later tick runs.
The same tick runs to its end when `ETHUSDT` has a running feed. -/
theorem updateTop150_blocks_without_feed :
    universe2.subscribedPairs = [("BTCUSDT", 0), ("ETHUSDT", 1)] ∧
    universe2.feeds = [] ∧
    (updateTop150 universe2 ["BTCUSDT", "SOLUSDT"]).completed = false ∧
    (updateTop150 universe2 ["BTCUSDT", "SOLUSDT"]).blockedOn = some (some 1) ∧
    (updateTop150 universe2 ["BTCUSDT", "SOLUSDT"]).state.subscribedPairs =
      [("BTCUSDT", 0), ("ETHUSDT", 1), ("SOLUSDT", 2)] ∧
    ¬ (∀ p, p ∈ pairKeys (updateTop150 universe2 ["BTCUSDT", "SOLUSDT"]).state.subscribedPairs ↔
      p ∈ ["BTCUSDT", "SOLUSDT"]) ∧
    (step universe2 (Action.refresh ["BTCUSDT", "SOLUSDT"])).refresherParked = true ∧
    (run universe2 [Action.refresh ["BTCUSDT", "SOLUSDT"],
      Action.refresh ["BTCUSDT", "SOLUSDT"]]).subscribedPairs =
        [("BTCUSDT", 0), ("ETHUSDT", 1), ("SOLUSDT", 2)] ∧
    (updateTop150 oneSubscriber ["BTCUSDT", "SOLUSDT"]).completed = true ∧
    (updateTop150 oneSubscriber ["BTCUSDT", "SOLUSDT"]).state.subscribedPairs =
      [("BTCUSDT", 0), ("SOLUSDT", 2)] :=
  ⟨by decide, by decide, by decide, by decide, by decide,
    fun h => absurd ((h "ETHUSDT").1 (by decide)) (by decide),
    by decide, by decide, by decide, by decide⟩

/-- C9 on the code: client 0, reading, has `XRPUSDT` (rejected, no registry
entry) and `BTCUSDT` (sole subscriber) in its `Subscriptions`.  Its deferred
function visits `XRPUSDT` first and blocks on the send on the nil channel:
it does not return, client 0 stays a member of `subscribedClients[BTCUSDT]`,
`BTCUSDT` stays in its `Subscriptions` and keeps its registry key and its
running feed.  Visiting `BTCUSDT` first, the deferred function blocks on the
same send afterwards.  Without a rejected instrument it returns. -/
theorem disconnect_blocks_on_rejected_pair :
    mixed.clientStatus 0 = ClientStatus.reading ∧
    mixed.Subscriptions 0 = ["XRPUSDT", "BTCUSDT"] ∧
    mixed.subscribedClients "XRPUSDT" = none ∧
    mixed.subscribedClients "BTCUSDT" = some [0] ∧
    (handleClientDeferred mixed 0).completed = false ∧
    (handleClientDeferred mixed 0).blockedOn = some none ∧
    subscribed (handleClientDeferred mixed 0).state 0 "BTCUSDT" ∧
    (handleClientDeferred mixed 0).state.Subscriptions 0 = ["BTCUSDT"] ∧
    (handleClientDeferred mixed 0).state.subscribedClients "BTCUSDT" = some [0] ∧
    (handleClientDeferred mixed 0).state.feeds =
      [{ symbol := "BTCUSDT", quit := 0, status := FeedStatus.running }] ∧
    (step mixed (Action.disconnect 0)).clientStatus 0 = ClientStatus.parked ∧
    mixedReversed.Subscriptions 0 = ["BTCUSDT", "XRPUSDT"] ∧
    (handleClientDeferred mixedReversed 0).completed = false ∧
    (handleClientDeferred mixedReversed 0).blockedOn = some none ∧
    (handleClientDeferred sharedSubscribers 0).completed = true ∧
    (handleClientDeferred sharedSubscribers 0).state.Subscriptions 0 = [] ∧
    (handleClientDeferred sharedSubscribers 0).state.subscribedClients "BTCUSDT" = none ∧
    (handleClientDeferred sharedSubscribers 0).state.subscribedClients "ETHUSDT" = some [1] := by
  decide

/-- C10 on the code: client 0, reading, holds the rejected `XRPUSDT` and sends
`SUBSCRIBE [BTCUSDT]`.  The second loop of `handleClient` blocks in
`UnsubscribeFromPair` on the send on the nil channel, the third loop never
runs, and `Subscriptions` stay empty instead of holding `BTCUSDT`.  A client
that holds `ETHUSDT` with a running feed has the same request processed. -/
theorem replace_blocks_on_rejected_pair :
    rejected.clientStatus 0 = ClientStatus.reading ∧
    rejected.Subscriptions 0 = ["XRPUSDT"] ∧
    (handleClient rejected 0 (subscribeRequest ["BTCUSDT"])).completed = false ∧
    (handleClient rejected 0 (subscribeRequest ["BTCUSDT"])).blockedOn = some none ∧
    (handleClient rejected 0 (subscribeRequest ["BTCUSDT"])).state.Subscriptions 0 = [] ∧
    "BTCUSDT" ∉ (handleClient rejected 0 (subscribeRequest ["BTCUSDT"])).state.Subscriptions 0 ∧
    subscribed (handleClient rejected 0 (subscribeRequest ["BTCUSDT"])).state 0 "BTCUSDT" ∧
    (step rejected (Action.request 0 (subscribeRequest ["BTCUSDT"]))).clientStatus 0 =
      ClientStatus.parked ∧
    (handleClient oneSubscriber 0 (subscribeRequest ["BTCUSDT"])).completed = true ∧
    (handleClient oneSubscriber 0 (subscribeRequest ["BTCUSDT"])).state.Subscriptions 0 =
      ["BTCUSDT"] ∧
    (handleClient oneSubscriber 0 (subscribeRequest ["BTCUSDT"])).state.feeds =
      [{ symbol := "ETHUSDT", quit := 1, status := FeedStatus.closing },
       { symbol := "BTCUSDT", quit := 0, status := FeedStatus.running }] := by
  decide

end Relay
